import Mathlib

/-!
# Verification of the GitHub repository analyzer backend

Shallow embedding of the analysis flow of the Express backend
(`server/routes/github.js`, given as `src/unnamed/part_007`, and the
`Repository` model, `src/unnamed/part_008`): URL parsing, the depth-bounded
cancellable tree crawl `buildFileTreeWithCancellation`, the denylist filter,
the Tree-API count reconciler `calculateTotalCounts`, the progress store,
and the delete / cancel routes.

Conventions of the embedding:
* The GitHub contents API is modelled by data: a directory's listing is part
  of the `RemoteEntry` tree, and the root listing is a `RootFetch`.  A
  directory whose listing request would come back with a bare HTTP status
  (404, 403, other 4xx, 5xx) carries that status instead of a listing.
* JavaScript `Number` arithmetic on the progress percentages is modelled in
  `ℚ` (for the parameter range `maxDepth ∈ [1, 20]`, `depth ≤ maxDepth`
  the float results are exact, and no `Math.round` tie can occur, so the
  rational model agrees with the floats).  `Math.round` is `⌊q + 1/2⌋`.
* The event loop is modelled by a checkpoint counter: every read of the
  shared `cancelled` flag gets a successive index (`St.tick`), and a
  cancellation request taking effect between two flag reads is modelled by
  `Ctx.cancelFrom = some c`: all reads with index `≥ c` see the flag set.
* Thrown `Error` values are `Except.error` carrying the message string; the
  `catch` block of `buildFileTreeWithCancellation` (part_007 line 263-265)
  re-wraps any message as `GitHub API error: <msg>`, which `wrapGH` models.
-/

/-! ## URL parser (part_007 lines 31-65) -/

/-- JS `url.trim()` (part_007 line 35): drop leading and trailing
whitespace (`Char.isWhitespace` stands in for the JS whitespace class). -/
def jsTrim (s : String) : String :=
  String.mk
    (((s.toList.dropWhile Char.isWhitespace).reverse.dropWhile
      Char.isWhitespace).reverse)

/-- JS `.replace(/\/$/, '')` (line 35): drop one trailing slash. -/
def stripTrailingSlash (s : String) : String :=
  if ['/'].isSuffixOf s.toList then String.mk s.toList.dropLast else s

/-- JS `.replace(/\.git$/, '')` (line 35): drop one trailing `.git`. -/
def stripDotGitSuffix (s : String) : String :=
  if ".git".toList.isSuffixOf s.toList then
    String.mk (s.toList.take (s.toList.length - 4))
  else s

/-- A character matched by `[^\/\s]` in the URL regex (line 38). -/
def isSegChar (c : Char) : Bool := !(c == '/') && !c.isWhitespace

/-- The literal part `github\.com\/` of the URL regex (line 38). -/
def markerChars : List Char := "github.com/".toList

/-- One attempt of the regex `github\.com\/([^\/\s]+)\/([^\/\s]+)` at a fixed
start position.  The greedy groups are maximal `isSegChar` runs; backtracking
cannot produce any other successful split because a shortened first group
would be followed by a segment character, never by `/`. -/
def matchMarkerAt (cs : List Char) : Option (String × String) :=
  if markerChars.isPrefixOf cs then
    let rest := cs.drop markerChars.length
    let owner := rest.takeWhile isSegChar
    match rest.drop owner.length with
    | '/' :: rest2 =>
      let repo := rest2.takeWhile isSegChar
      if owner.isEmpty || repo.isEmpty then none
      else some (String.mk owner, String.mk repo)
    | _ => none
  else none

/-- The unanchored regex search `cleanUrl.match(regex)` (line 39): try every
start position from the left. -/
def searchGithub : List Char → Option (String × String)
  | [] => none
  | c :: rest =>
    match matchMarkerAt (c :: rest) with
    | some r => some r
    | none => searchGithub rest

/-- `[a-zA-Z0-9]` (ASCII, exactly as in the JS character class). -/
def isAlnumAscii (c : Char) : Bool := c.isAlpha || c.isDigit

/-- A character of the inner class `[a-zA-Z0-9\-\.]` of the owner pattern
(line 54). -/
def ownerMidChar (c : Char) : Bool := isAlnumAscii c || c == '-' || c == '.'

/-- A character of the inner class `[a-zA-Z0-9\-\._]` of the repo pattern
(line 55). -/
def repoMidChar (c : Char) : Bool :=
  isAlnumAscii c || c == '-' || c == '.' || c == '_'

/-- The anchored pattern `^[a-zA-Z0-9]([...]*[a-zA-Z0-9])?$`: nonempty,
first and last character alphanumeric, inner characters from `mid`. -/
def validSegment (mid : Char → Bool) (s : String) : Bool :=
  match s.toList with
  | [] => false
  | [c] => isAlnumAscii c
  | c :: rest =>
    isAlnumAscii c && rest.dropLast.all mid && isAlnumAscii (rest.getLastD c)

/-- `validOwnerPattern` (part_007 line 54). -/
def validOwnerPattern (s : String) : Bool := validSegment ownerMidChar s

/-- `validRepoPattern` (part_007 line 55). -/
def validRepoPattern (s : String) : Bool := validSegment repoMidChar s

/-- `parseGitHubUrl` (part_007 lines 32-65).  Returns `none` where the JS
returns `null`.  The function is pure: no network access occurs. -/
def parseGitHubUrl (url : String) : Option (String × String) :=
  let cleanUrl := stripDotGitSuffix (stripTrailingSlash (jsTrim url))
  match searchGithub cleanUrl.toList with
  | none => none
  | some (owner, repo) =>
    if owner == "" || repo == "" then none
    else if validOwnerPattern owner && validRepoPattern repo then
      some (owner, repo)
    else none

/-- Split a character list at every occurrence of `sep` (the groups of JS
`String.prototype.split`). -/
def splitOnChar (sep : Char) : List Char → List (List Char)
  | [] => [[]]
  | c :: rest =>
    let r := splitOnChar sep rest
    if c == sep then [] :: r
    else
      match r with
      | [] => [[c]]
      | g :: gs => (c :: g) :: gs

/-- The first `github.com/` marker occurrence and the text after it (used
only by `specWellFormedGitHubUrl` below). -/
def afterMarker : List Char → Option (List Char)
  | [] => none
  | c :: rest =>
    if markerChars.isPrefixOf (c :: rest) then
      some ((c :: rest).drop markerChars.length)
    else afterMarker rest

/-- Modelled from the spec (§4.1) and claim C7's wording, not from the code:
a URL is well formed when the path after the `github.com/` marker consists of
exactly two non-empty segments, each matching the conservative identifier
pattern.  Used to express what claim C7 calls a malformed input. -/
def specWellFormedGitHubUrl (url : String) : Bool :=
  let cleanUrl := stripDotGitSuffix (stripTrailingSlash (jsTrim url))
  match afterMarker cleanUrl.toList with
  | none => false
  | some rest =>
    match splitOnChar '/' rest with
    | [owner, repo] =>
      !owner.isEmpty && !repo.isEmpty &&
        validOwnerPattern (String.mk owner) && validRepoPattern (String.mk repo)
    | _ => false

/-! ## Denylist (part_007 lines 199-223 and 432-449)

The JS turns a glob pattern into `new RegExp(pattern.replace(/\*/g, '.*'))`
and calls `.test(...)`, an *unanchored substring search* in which every `.`
of the original pattern is itself a wildcard.  `RTok`/`matchToks` implement
exactly these regexes (literals, `.`, `.*`). -/

inductive RTok where
  | lit (c : Char)
  | any
  | star
deriving Repr, DecidableEq

/-- Compile a glob from `skipPatterns`: `*` becomes `.*` (match anything),
`.` is the regex wildcard (it is not escaped in the JS), anything else is a
literal. -/
def compileGlob (p : String) : List RTok :=
  p.toList.map fun c =>
    if c == '*' then RTok.star else if c == '.' then RTok.any else RTok.lit c

/-- Match a compiled pattern against a prefix of `cs` (the pattern need not
consume all of `cs`, as with `RegExp.test`).  `star` may consume any number
of characters, hence the match against every suffix. -/
def matchToks : List RTok → List Char → Bool
  | [], _ => true
  | .lit a :: ts, cs =>
    match cs with
    | [] => false
    | c :: cs2 => a == c && matchToks ts cs2
  | .any :: ts, cs =>
    match cs with
    | [] => false
    | _ :: cs2 => matchToks ts cs2
  | .star :: ts, cs => cs.tails.any fun suffix => matchToks ts suffix

/-- JS `regex.test(s)`: unanchored search, i.e. a match may start at any
position of `s`. -/
def jsRegexTest (pattern : String) (s : String) : Bool :=
  s.toList.tails.any fun suffix => matchToks (compileGlob pattern) suffix

/-- The fixed denylist (part_007 lines 200-204, repeated verbatim at
402-406 and 503-507). -/
def skipPatterns : List String :=
  ["node_modules", ".git", "dist", "build", ".next", ".nuxt",
   "coverage", ".nyc_output", ".cache", ".parcel-cache",
   "*.log", "*.lock", "*.min.js", "*.min.css", "*.map"]

/-- The crawler's `shouldSkip` (part_007 lines 213-219): glob patterns are
tested against the entry *name*, exact patterns compared to the name. -/
def shouldSkipName (name : String) : Bool :=
  skipPatterns.any fun pattern =>
    if pattern.toList.contains '*' then jsRegexTest pattern name
    else name == pattern

/-- JS `item.path.split('/').pop()`. -/
def basename (p : String) : String :=
  String.mk ((splitOnChar '/' p.toList).getLastD [])

/-- The reconciler's `shouldSkip` (part_007 lines 434-440): glob patterns are
tested against the *full path* and against its basename; exact patterns are
compared to the full path and to the basename. -/
def shouldSkipFlat (path : String) : Bool :=
  skipPatterns.any fun pattern =>
    if pattern.toList.contains '*' then
      jsRegexTest pattern path || jsRegexTest pattern (basename path)
    else path == pattern || basename path == pattern

/-! ## The remote repository -/

/-- One entry of a directory listing of the contents API.  A subdirectory
carries the outcome of listing it: either its items (`dirOk`) or the bare
HTTP status that request would produce (`dirErr`). -/
inductive RemoteEntry where
  | file (name path downloadUrl : String) (size : Nat)
  | dirOk (name path : String) (sub : List RemoteEntry)
  | dirErr (name path : String) (code : Nat) (statusText : String)
deriving Repr

/-- The `item.name` field. -/
def RemoteEntry.entryName : RemoteEntry → String
  | .file n _ _ _ => n
  | .dirOk n _ _ => n
  | .dirErr n _ _ _ => n

/-- Outcome of listing one directory: items on HTTP 200, or a bare status. -/
inductive RootFetch where
  | ok (items : List RemoteEntry)
  | httpStatus (code : Nat) (statusText : String)
deriving Repr

/-! ## Progress store state (part_007 lines 119-137, 268-269, 356-372) -/

/-- External cancellation schedule: `cancelFrom = some c` means a cancel
request took effect before the `c`-th read of the `cancelled` flag, so every
read with index `≥ c` sees `true` (the JS flag transitions `false → true`
once and is never reset).  `none` means no cancel request arrives. -/
structure Ctx where
  cancelFrom : Option Nat
deriving Repr

/-- The progress-store slice of the interpreter state for one `analysisId`:
the flag-read counter, the stored `progress` field, and the ordered list of
values ever stored in `progress` (what a poller can observe). -/
structure St where
  tick : Nat
  progress : Int
  trace : List Int
deriving Repr

/-- Value of the shared `cancelled` flag at flag-read number `t`. -/
def cancelledAt (ctx : Ctx) (t : Nat) : Bool :=
  match ctx.cancelFrom with
  | none => false
  | some c => c ≤ t

/-- One read of `activeAnalyses.get(analysisId)?.cancelled`. -/
def checkpoint (ctx : Ctx) (s : St) : Bool × St :=
  (cancelledAt ctx s.tick, { s with tick := s.tick + 1 })

/-- JS `Math.min` on the (here always comparable) numbers involved. -/
def jsMinQ (a b : ℚ) : ℚ := if a ≤ b then a else b

/-- JS `Math.round`: round half toward positive infinity. -/
def jsRound (q : ℚ) : ℤ := ⌊q + 1 / 2⌋

/-- `Math.min(10 + (depth / maxDepth) * 80, 90)` (part_007 line 123). -/
def progressValue (depth maxDepth : Nat) : ℚ :=
  jsMinQ (10 + ((depth : ℚ) / (maxDepth : ℚ)) * 80) 90

/-- The progress write of lines 119-137: the new stored value is
`Math.max(currentAnalysis.progress || 0, Math.round(currentProgress))`;
`progress || 0` equals `progress` whenever an entry exists (it is created
with `progress: 0`). -/
def progressUpdate (depth maxDepth : Nat) (s : St) : St :=
  let newProgress := max s.progress (jsRound (progressValue depth maxDepth))
  { s with progress := newProgress, trace := s.trace ++ [newProgress] }

/-- The entry created by `activeAnalyses.set(analysisId, { cancelled: false,
progress: 0 })` (line 358). -/
def st0 : St := { tick := 0, progress := 0, trace := [0] }

/-- A run during which no cancel request arrives. -/
def ctxNone : Ctx := ⟨none⟩

/-! ## The produced tree -/

inductive NodeType where
  | file
  | folder
deriving Repr, DecidableEq

/-- The scalar fields a produced node can carry; a field the JS object
literal omits is `none` (for `truncated`, absent and `false` are
indistinguishable to every consumer, so it is a plain `Bool`). -/
structure NodeData where
  name : String
  kind : NodeType
  path : Option String
  download_url : Option String
  size : Option Nat
  depthF : Option Nat
  actualDepthF : Option Nat
  maxDepthF : Option Nat
  truncated : Bool
  message : Option String
  errorMsg : Option String
deriving Repr, DecidableEq

inductive TreeNode where
  | node (data : NodeData) (children : List TreeNode)
deriving Repr

def TreeNode.dataOf : TreeNode → NodeData
  | .node d _ => d

def TreeNode.childrenOf : TreeNode → List TreeNode
  | .node _ c => c

/-- JS `path || repo`: the empty path (root call) falls back to the repo
name. -/
def pathOrRepo (repo path : String) : String :=
  if path == "" then repo else path

/-- The truncation node (part_007 lines 141-149). -/
def truncNode (repo path : String) (depth maxDepth : Nat) : TreeNode :=
  .node
    { name := pathOrRepo repo path, kind := .folder, path := none,
      download_url := none, size := none, depthF := none,
      actualDepthF := some depth, maxDepthF := some maxDepth,
      truncated := true,
      message := some ("Maximum depth (" ++ toString maxDepth ++ ") reached"),
      errorMsg := none }
    []

/-- The 404/403 degradation node (part_007 lines 165-183). -/
def errNode (repo path : String) (depth : Nat) (msg : String) : TreeNode :=
  .node
    { name := pathOrRepo repo path, kind := .folder, path := none,
      download_url := none, size := none, depthF := some depth,
      actualDepthF := none, maxDepthF := none, truncated := false,
      message := none, errorMsg := some msg }
    []

/-- The node an invocation assembles from its children (lines 190-197). -/
def folderNode (repo path : String) (depth maxDepth : Nat)
    (children : List TreeNode) : TreeNode :=
  .node
    { name := pathOrRepo repo path, kind := .folder, path := none,
      download_url := none, size := none, depthF := some depth,
      actualDepthF := some depth, maxDepthF := some maxDepth,
      truncated := false, message := none, errorMsg := none }
    children

/-- JS `subTree.actualDepth || depth + 1`: an absent *or zero* field falls
back to `depth + 1` (0 is falsy). -/
def jsOrNat (o : Option Nat) (dflt : Nat) : Nat :=
  match o with
  | none => dflt
  | some a => if a = 0 then dflt else a

/-- The folder child pushed for a subdirectory (part_007 lines 236-246).
Note which fields of the recursive result survive: `children`, `truncated`,
`message`, `actualDepth` — the `error` field of a degraded subtree is *not*
copied. -/
def dirChildNode (name p : String) (depth maxDepth : Nat)
    (subTree : TreeNode) : TreeNode :=
  .node
    { name := name, kind := .folder, path := some p,
      download_url := none, size := none, depthF := some (depth + 1),
      actualDepthF := some (jsOrNat subTree.dataOf.actualDepthF (depth + 1)),
      maxDepthF := some maxDepth,
      truncated := subTree.dataOf.truncated,
      message := subTree.dataOf.message, errorMsg := none }
    subTree.childrenOf

/-- The file child pushed for a file entry (part_007 lines 249-258). -/
def fileNode (name p url : String) (size depth maxDepth : Nat) : TreeNode :=
  .node
    { name := name, kind := .file, path := some p,
      download_url := some url, size := some size, depthF := some depth,
      actualDepthF := some depth, maxDepthF := some maxDepth,
      truncated := false, message := none, errorMsg := none }
    []

/-! ## The crawl (part_007 lines 112-266) -/

/-- The `catch` block of `buildFileTreeWithCancellation` (lines 263-265):
every error leaving an invocation — including a cancellation throw from
inside the same invocation and an already-wrapped error of a recursive
call — is re-thrown as `GitHub API error: <message>`. -/
def wrapGH (r : Except String TreeNode × St) : Except String TreeNode × St :=
  match r with
  | (.error e, s) => (.error ("GitHub API error: " ++ e), s)
  | (.ok t, s) => (.ok t, s)

/-- The bare-status handling of one invocation (part_007 lines 165-187):
404 and 403 become data (degraded nodes); any other status `≥ 400` is
thrown at line 186; a 5xx is thrown by axios itself (`validateStatus:
status < 500`) with the axios message.  A status `< 400` always carries a
listing in the upstream API and does not occur with a bare status here; it
is mapped to an empty listing result. -/
def statusResult (repo path : String) (depth maxDepth code : Nat)
    (statusText : String) : Except String TreeNode :=
  if code = 404 then
    .ok (errNode repo path depth "Directory not found or access denied")
  else if code = 403 then
    .ok (errNode repo path depth "Rate limit exceeded or access denied")
  else if code ≥ 500 then
    .error ("Request failed with status code " ++ toString code)
  else if code ≥ 400 then
    .error ("GitHub API error: " ++ toString code ++ " " ++ statusText)
  else .ok (folderNode repo path depth maxDepth [])

/-- Exception propagation of `await` around the item loop: an error thrown
by the loop propagates, a value is assembled into the invocation's tree
(part_007 lines 190-197 and 262). -/
def assembleDir (repo path : String) (depth maxDepth : Nat) :
    Except String (List TreeNode) × St → Except String TreeNode × St
  | (.error e, s) => (.error e, s)
  | (.ok children, s) => (.ok (folderNode repo path depth maxDepth children), s)

/-- Exception propagation of `await` around one loop iteration: an error
from processing the remaining items propagates, otherwise the node built
for the current item is pushed in front (part_007 `tree.children.push`). -/
def consChild (node : TreeNode) :
    Except String (List TreeNode) × St → Except String (List TreeNode) × St
  | (.error e, s) => (.error e, s)
  | (.ok ns, s) => (.ok (node :: ns), s)

mutual

/-- One invocation of `buildFileTreeWithCancellation` (part_007 112-266),
where `fetch` is what `GET .../contents/{path}` returns for `path`:
cancellation check (line 115), progress write (119-137), depth check
(139-150), then status handling (165-187) or the item loop; the whole body
is wrapped by the catch of lines 263-265.  A 5xx status is thrown by axios
itself (`validateStatus: status < 500`) with the axios message. -/
def buildFileTreeWithCancellation (ctx : Ctx) (repo path : String)
    (fetch : RootFetch) (depth maxDepth : Nat) (s : St) :
    Except String TreeNode × St :=
  wrapGH
    (match checkpoint ctx s with
     | (true, s1) => (.error "Analysis cancelled by user", s1)
     | (false, s1) =>
       let s2 := progressUpdate depth maxDepth s1
       if depth ≥ maxDepth then
         (.ok (truncNode repo path depth maxDepth), s2)
       else
         match fetch with
         | .httpStatus code statusText =>
           (statusResult repo path depth maxDepth code statusText, s2)
         | .ok items =>
           assembleDir repo path depth maxDepth
             (buildFileTreeItems ctx repo items depth maxDepth s2))
termination_by sizeOf fetch

/-- The `for (const item of items)` loop (part_007 lines 206-260):
cancellation check per item (207-210), denylist skip (212-223), recursion
for directories (225-246), file nodes (247-259). -/
def buildFileTreeItems (ctx : Ctx) (repo : String) (items : List RemoteEntry)
    (depth maxDepth : Nat) (s : St) :
    Except String (List TreeNode) × St :=
  match items with
  | [] => (.ok [], s)
  | item :: rest =>
    match checkpoint ctx s with
    | (true, s1) => (.error "Analysis cancelled by user", s1)
    | (false, s1) =>
      if shouldSkipName item.entryName then
        buildFileTreeItems ctx repo rest depth maxDepth s1
      else
        match item with
        | .file n p url size =>
          consChild (fileNode n p url size depth maxDepth)
            (buildFileTreeItems ctx repo rest depth maxDepth s1)
        | .dirOk n p sub =>
          (match buildFileTreeWithCancellation ctx repo p (.ok sub)
              (depth + 1) maxDepth s1 with
           | (.error e, s2) => (.error e, s2)
           | (.ok subTree, s2) =>
             consChild (dirChildNode n p depth maxDepth subTree)
               (buildFileTreeItems ctx repo rest depth maxDepth s2))
        | .dirErr n p code statusText =>
          (match buildFileTreeWithCancellation ctx repo p
              (.httpStatus code statusText) (depth + 1) maxDepth s1 with
           | (.error e, s2) => (.error e, s2)
           | (.ok subTree, s2) =>
             consChild (dirChildNode n p depth maxDepth subTree)
               (buildFileTreeItems ctx repo rest depth maxDepth s2))
termination_by sizeOf items

end

/-! ## Counting (part_007 lines 425-492 and 561-580) -/

/-- An entry of the flattened Git Trees API listing
(`GET .../git/trees/{branch}?recursive=1`), part_007 line 432. -/
inductive FlatType where
  | blob
  | tree
deriving Repr, DecidableEq

structure FlatItem where
  path : String
  ftype : FlatType
deriving Repr, DecidableEq

/-- The counting loop of `calculateTotalCounts` (part_007 lines 431-462):
per flattened entry, skip on `shouldSkipFlat`, count blobs as files and
non-root trees as folders.  (`skippedFiles`/`skippedFolders`/`rootFolders`
are only logged and are omitted.)  Returns `(totalFiles, totalFolders)`. -/
def calculateTotalCounts : List FlatItem → Nat × Nat
  | [] => (0, 0)
  | it :: rest =>
    if shouldSkipFlat it.path then calculateTotalCounts rest
    else
      match it.ftype with
      | .blob =>
        let r := calculateTotalCounts rest
        (r.1 + 1, r.2)
      | .tree =>
        if it.path = "" then calculateTotalCounts rest
        else
          let r := calculateTotalCounts rest
          (r.1, r.2 + 1)

mutual

/-- The flattened recursive listing the Git Trees API produces for a given
remote: every file is a `blob` entry and every directory a `tree` entry,
parents before their contents.  This ties the reconciler's input to the same
repository the crawler walks. -/
def flattenEntry : RemoteEntry → List FlatItem
  | .file _ p _ _ => [⟨p, .blob⟩]
  | .dirOk _ p sub => ⟨p, .tree⟩ :: flattenList sub
  | .dirErr _ p _ _ => [⟨p, .tree⟩]

def flattenList : List RemoteEntry → List FlatItem
  | [] => []
  | e :: rest => flattenEntry e ++ flattenList rest

end

/-- The flattened listing of a whole remote repository. -/
def flattenRemote (items : List RemoteEntry) : List FlatItem :=
  flattenList items

mutual

/-- `countAnalyzed` (part_007 lines 563-576): `(files, folders)` present in
the produced tree, not counting the root folder itself.  The fallback
counter `countFromTree` of lines 475-488 is the identical algorithm and is
modelled by this same function. -/
def countAnalyzed (isRoot : Bool) : TreeNode → Nat × Nat
  | .node data ch =>
    match data.kind with
    | .file => (1, 0)
    | .folder =>
      let sub := countAnalyzedList ch
      (sub.1, (if isRoot then 0 else 1) + sub.2)

def countAnalyzedList : List TreeNode → Nat × Nat
  | [] => (0, 0)
  | c :: cs =>
    let a := countAnalyzed false c
    let b := countAnalyzedList cs
    (a.1 + b.1, a.2 + b.2)

end

/-! ## The analyze route (part_007 lines 272-754) -/

/-- The client-supplied `maxDepth` after JS `parseInt`: absent (the
destructuring default `15` applies), not a number (`parseInt` gave `NaN`),
or an integer. -/
inductive ClientMaxDepth where
  | missing
  | nonNumeric
  | intVal (n : Int)
deriving Repr, DecidableEq

/-- `parseInt(maxDepth) || 15` (part_007 line 281): `NaN` and `0` are falsy
and fall back to 15; a missing field already defaulted to 15. -/
def parseIntOr15 : ClientMaxDepth → Int
  | .missing => 15
  | .nonNumeric => 15
  | .intVal n => if n = 0 then 15 else n

/-- `Math.min(Math.max(parseInt(maxDepth) || 15, 1), 20)` (line 281). -/
def effectiveMaxDepth (c : ClientMaxDepth) : Int :=
  min (max (parseIntOr15 c) 1) 20

/-- Substring occurrence on character lists. -/
def includesChars (pat : List Char) : List Char → Bool
  | [] => pat.isEmpty
  | c :: rest => pat.isPrefixOf (c :: rest) || includesChars pat rest

/-- JS `String.prototype.includes`. -/
def includesStr (s sub : String) : Bool := includesChars sub.toList s.toList

/-- Responses of the `/analyze` route the modelled flow can produce. -/
inductive Response where
  | okJson
  | cancelled499
  | notFound404 (msg : String)
  | serverError500 (msg : String)
deriving Repr, DecidableEq

/-- The catch block of the `/analyze` route (part_007 lines 702-753),
restricted to errors thrown out of the crawl.  Such errors are plain
`Error` values: they carry no `response` and no `code` field, so the
rate-limit branch (line 730) and the network branch (line 739) never fire
for them and are omitted here.  Order as in the source: exact cancellation
message → 499; message containing `not found` or `Repository` → 404;
otherwise → 500. -/
def routeCatch (msg : String) : Response :=
  if msg == "Analysis cancelled by user" then Response.cancelled499
  else if includesStr msg "not found" || includesStr msg "Repository" then
    Response.notFound404 msg
  else Response.serverError500 msg

/-- The stats fields of the stored record the claims are about (part_007
lines 640-644). -/
structure RepoStats where
  analyzedFiles : Nat
  analyzedFolders : Nat
  totalFiles : Nat
  totalFolders : Nat
deriving Repr, DecidableEq

/-- The `RepositoryRecord` written by `Repository.create` (line 666),
restricted to the fields the claims mention. -/
structure SavedRecord where
  repoUrl : String
  tree : TreeNode
  stats : RepoStats
deriving Repr

/-- The `/analyze` route (part_007 lines 272-754) from the point where the
analysis entry is created (line 358; URL parsing and repository validation
precede it and involve no cancellation state): run the crawl from `st0`,
set progress to 100 (line 365), re-check the flag (line 375), reconcile
counts (494, 561-580: analyzed counts are clamped by the totals, line
579-580; a failed Trees-API listing falls back to counting from the crawled
tree, lines 470-491), and persist (line 666).  Returns the response, the
persisted record if any, and the full sequence of values stored in the
progress field. -/
def analyzeRoute (ctx : Ctx) (repoUrl repo : String) (fetch : RootFetch)
    (clientDepth : ClientMaxDepth) (treesListing : Option (List FlatItem)) :
    Response × Option SavedRecord × List Int :=
  match buildFileTreeWithCancellation ctx repo "" fetch 0
      (effectiveMaxDepth clientDepth).toNat st0 with
  | (.error msg, sEnd) => (routeCatch msg, none, sEnd.trace)
  | (.ok fileTree, s1) =>
    let s2 : St := { tick := s1.tick, progress := 100, trace := s1.trace ++ [100] }
    if cancelledAt ctx s2.tick then (Response.cancelled499, none, s2.trace)
    else
      let totalCounts :=
        match treesListing with
        | some items => calculateTotalCounts items
        | none => countAnalyzed true fileTree
      let analyzedCounts := countAnalyzed true fileTree
      let stats : RepoStats :=
        { analyzedFiles := min analyzedCounts.1 totalCounts.1,
          analyzedFolders := min analyzedCounts.2 totalCounts.2,
          totalFiles := totalCounts.1,
          totalFolders := totalCounts.2 }
      (Response.okJson,
       some { repoUrl := repoUrl, tree := fileTree, stats := stats },
       s2.trace)

/-! ## Deleting a repository (part_008 lines 73-109, part_007 971-985) -/

/-- A stored repository record as kept by the fallback storage map
(part_008 lines 10-17), restricted to the fields deletion looks at. -/
structure RepoRecord where
  id : Nat
  user_id : Nat
  repo_url : String
deriving Repr, DecidableEq

/-- `storage.repositories.get(id)`: the storage is a `Map` keyed by `id`;
modelled as an association list with (as for a `Map`) unique ids. -/
def storageGet (storage : List RepoRecord) (repoId : Nat) : Option RepoRecord :=
  storage.find? fun r => r.id == repoId

/-- `Repository.deleteById` (part_008 lines 73-109, fallback branch):
delete iff the record exists *and* belongs to the user; otherwise report
`false` and leave the storage unchanged.  (The MongoDB branch expresses the
same conjunction as a `deleteOne` query on `_id` and `user_id`.) -/
def deleteById (storage : List RepoRecord) (userId repoId : Nat) :
    Bool × List RepoRecord :=
  match storageGet storage repoId with
  | some repo =>
    if repo.user_id = userId then
      (true, storage.filter fun r => !(r.id == repoId))
    else (false, storage)
  | none => (false, storage)

/-- `router.delete('/repositories/:id')` (part_007 lines 971-985): 200 on
deletion, one fixed 404 response otherwise. -/
def deleteRepositoryRoute (storage : List RepoRecord) (userId repoId : Nat) :
    (Nat × String) × List RepoRecord :=
  let r := deleteById storage userId repoId
  if r.1 then ((200, "Repository deleted successfully"), r.2)
  else ((404, "Repository not found"), r.2)

/-! ## Cancelling (part_007 lines 893-914) -/

/-- An `activeAnalyses` entry as the cancel route sees it. -/
structure AnalysisEntry where
  cancelled : Bool
  progress : Int
deriving Repr, DecidableEq

/-- The loop of `router.post('/analyze/cancel')` (lines 898-904): walk every
entry of `activeAnalyses`; for each key starting with the requesting user's
id, set `cancelled` and remember that something matched. -/
def cancelLoop (userId : String) :
    List (String × AnalysisEntry) → Bool × List (String × AnalysisEntry)
  | [] => (false, [])
  | p :: rest =>
    let r := cancelLoop userId rest
    if p.1.startsWith userId then
      (true, (p.1, { p.2 with cancelled := true }) :: r.2)
    else (r.1, p :: r.2)

/-- `router.post('/analyze/cancel')` (part_007 lines 893-914).  The request
body's `analysisId` is destructured (line 895) but never used.  Returns the
response message, the `cancelled` response field, and the updated table. -/
def cancelRoute (userId : String) (bodyAnalysisId : Option String)
    (m : List (String × AnalysisEntry)) :
    (String × Bool) × List (String × AnalysisEntry) :=
  let r := cancelLoop userId m
  ((if r.1 then "Analysis cancellation requested"
    else "No active analysis found", r.1), r.2)

/-! ## Invariants of the produced tree -/

/-- The nodes sitting at structural depth `j` of a tree (the root is at
depth 0, the children of a node at depth `j` are at depth `j + 1`). -/
def nodesAt : Nat → TreeNode → List TreeNode
  | 0, t => [t]
  | j + 1, .node _ ch => (ch.map (nodesAt j)).flatten

/-- The local facts claims C1, C3 and C4 need about one node sitting at
absolute depth `abs` of a crawl bounded by `maxDepth = d`: recorded depths
at most `d`; truncated or error-annotated nodes have no children; a folder
at depth `d` is truncated and childless; a non-root node has an unskipped
name and no error annotation. -/
def NodeInv (d abs : Nat) (isRoot : Bool) (n : TreeNode) : Prop :=
  (∀ a, n.dataOf.depthF = some a → a ≤ d) ∧
  (∀ a, n.dataOf.actualDepthF = some a → a ≤ d) ∧
  (n.dataOf.truncated = true → n.childrenOf = []) ∧
  (n.dataOf.errorMsg ≠ none → n.childrenOf = []) ∧
  (abs = d → n.dataOf.kind = NodeType.folder →
    n.dataOf.truncated = true ∧ n.childrenOf = []) ∧
  (isRoot = false →
    shouldSkipName n.dataOf.name = false ∧ n.dataOf.errorMsg = none)

mutual

/-- `NodeInv` at every node of a tree rooted at absolute depth `abs`. -/
def TreeInv (d : Nat) : Nat → Bool → TreeNode → Prop
  | abs, isRoot, .node nd ch =>
    NodeInv d abs isRoot (.node nd ch) ∧ TreeListInv d (abs + 1) ch

def TreeListInv (d : Nat) : Nat → List TreeNode → Prop
  | _, [] => True
  | abs, c :: cs => TreeInv d abs false c ∧ TreeListInv d abs cs

end

mutual

/-- Every status a listing inside this entry can produce is 404 or 403. -/
def benignEntry : RemoteEntry → Bool
  | .file _ _ _ _ => true
  | .dirOk _ _ sub => benignList sub
  | .dirErr _ _ code _ => code == 404 || code == 403

def benignList : List RemoteEntry → Bool
  | [] => true
  | e :: rest => benignEntry e && benignList rest

end

/-- Every status the whole fetch can produce is 404 or 403. -/
def benignFetch : RootFetch → Bool
  | .ok items => benignList items
  | .httpStatus code _ => code == 404 || code == 403

/-- Well-behavedness of one observable progress sequence: the values stored
for one analysis id, in order, form a non-decreasing chain whose last
element is the current `progress` field and stays in the crawl band. -/
def GoodSt (s : St) : Prop :=
  s.trace.Chain' (· ≤ ·) ∧ s.trace.getLast? = some s.progress ∧
    s.progress ≤ 90

/-! # Theorems

## Combinator and unfolding lemmas -/

theorem wrapGH_snd (r : Except String TreeNode × St) : (wrapGH r).2 = r.2 := by
  rcases r with ⟨a, s⟩
  cases a <;> rfl

theorem consChild_snd (n : TreeNode) (r : Except String (List TreeNode) × St) :
    (consChild n r).2 = r.2 := by
  rcases r with ⟨a, s⟩
  cases a <;> rfl

theorem assembleDir_snd (repo path : String) (d m : Nat)
    (r : Except String (List TreeNode) × St) :
    (assembleDir repo path d m r).2 = r.2 := by
  rcases r with ⟨a, s⟩
  cases a <;> rfl

theorem wrapGH_eq_ok {r : Except String TreeNode × St} {t : TreeNode} {s : St} :
    wrapGH r = (.ok t, s) ↔ r = (.ok t, s) := by
  rcases r with ⟨a, s1⟩
  cases a <;> simp [wrapGH]

theorem assembleDir_eq_ok {repo path : String} {d m : Nat}
    {r : Except String (List TreeNode) × St} {t : TreeNode} {s : St} :
    assembleDir repo path d m r = (.ok t, s) ↔
      ∃ ns, r = (.ok ns, s) ∧ t = folderNode repo path d m ns := by
  rcases r with ⟨a, s1⟩
  cases a <;> simp [assembleDir] <;> aesop

theorem consChild_eq_ok {n : TreeNode} {r : Except String (List TreeNode) × St}
    {l : List TreeNode} {s : St} :
    consChild n r = (.ok l, s) ↔ ∃ ns, r = (.ok ns, s) ∧ l = n :: ns := by
  rcases r with ⟨a, s1⟩
  cases a <;> simp [consChild] <;> aesop

theorem checkpoint_snd (ctx : Ctx) (s : St) :
    (checkpoint ctx s).2 = { s with tick := s.tick + 1 } := rfl

theorem checkpoint_none {ctx : Ctx} (hnc : ctx.cancelFrom = none) (s : St) :
    checkpoint ctx s = (false, { s with tick := s.tick + 1 }) := by
  simp [checkpoint, cancelledAt, hnc]

/-- Unfolding `buildFileTreeWithCancellation` when the cancellation check
fires: the throw of line 116, wrapped by the catch of line 263. -/
theorem crawl_unfold_cancelled {ctx : Ctx} {repo path : String}
    {fetch : RootFetch} {depth maxDepth : Nat} {s s1 : St}
    (h : checkpoint ctx s = (true, s1)) :
    buildFileTreeWithCancellation ctx repo path fetch depth maxDepth s =
      (.error "GitHub API error: Analysis cancelled by user", s1) := by
  simp only [buildFileTreeWithCancellation, h]
  rfl

/-- Unfolding `buildFileTreeWithCancellation` when not cancelled. -/
theorem crawl_unfold_run {ctx : Ctx} {repo path : String} {fetch : RootFetch}
    {depth maxDepth : Nat} {s s1 : St} (h : checkpoint ctx s = (false, s1)) :
    buildFileTreeWithCancellation ctx repo path fetch depth maxDepth s =
      wrapGH
        (if depth ≥ maxDepth then
          (.ok (truncNode repo path depth maxDepth),
           progressUpdate depth maxDepth s1)
        else
          match fetch with
          | .httpStatus code statusText =>
            (statusResult repo path depth maxDepth code statusText,
             progressUpdate depth maxDepth s1)
          | .ok items =>
            assembleDir repo path depth maxDepth
              (buildFileTreeItems ctx repo items depth maxDepth
                (progressUpdate depth maxDepth s1))) := by
  simp only [buildFileTreeWithCancellation, h]

theorem crawl_unfold_trunc {ctx : Ctx} {repo path : String}
    {fetch : RootFetch} {depth maxDepth : Nat} {s s1 : St}
    (h : checkpoint ctx s = (false, s1)) (hd : depth ≥ maxDepth) :
    buildFileTreeWithCancellation ctx repo path fetch depth maxDepth s =
      (.ok (truncNode repo path depth maxDepth),
       progressUpdate depth maxDepth s1) := by
  rw [crawl_unfold_run h, if_pos hd]
  rfl

theorem crawl_unfold_status {ctx : Ctx} {repo path statusText : String}
    {code depth maxDepth : Nat} {s s1 : St}
    (h : checkpoint ctx s = (false, s1)) (hd : ¬depth ≥ maxDepth) :
    buildFileTreeWithCancellation ctx repo path (.httpStatus code statusText)
        depth maxDepth s =
      wrapGH (statusResult repo path depth maxDepth code statusText,
        progressUpdate depth maxDepth s1) := by
  rw [crawl_unfold_run h, if_neg hd]

theorem crawl_unfold_listing {ctx : Ctx} {repo path : String}
    {items : List RemoteEntry} {depth maxDepth : Nat} {s s1 : St}
    (h : checkpoint ctx s = (false, s1)) (hd : ¬depth ≥ maxDepth) :
    buildFileTreeWithCancellation ctx repo path (.ok items) depth maxDepth s =
      wrapGH (assembleDir repo path depth maxDepth
        (buildFileTreeItems ctx repo items depth maxDepth
          (progressUpdate depth maxDepth s1))) := by
  rw [crawl_unfold_run h, if_neg hd]

theorem items_unfold_nil (ctx : Ctx) (repo : String) (depth maxDepth : Nat)
    (s : St) :
    buildFileTreeItems ctx repo [] depth maxDepth s = (.ok [], s) := by
  simp [buildFileTreeItems]

theorem items_unfold_cancelled {ctx : Ctx} {repo : String}
    {item : RemoteEntry} {rest : List RemoteEntry} {depth maxDepth : Nat}
    {s s1 : St} (h : checkpoint ctx s = (true, s1)) :
    buildFileTreeItems ctx repo (item :: rest) depth maxDepth s =
      (.error "Analysis cancelled by user", s1) := by
  simp only [buildFileTreeItems, h]

theorem items_unfold_skip {ctx : Ctx} {repo : String} {item : RemoteEntry}
    {rest : List RemoteEntry} {depth maxDepth : Nat} {s s1 : St}
    (h : checkpoint ctx s = (false, s1))
    (hs : shouldSkipName item.entryName = true) :
    buildFileTreeItems ctx repo (item :: rest) depth maxDepth s =
      buildFileTreeItems ctx repo rest depth maxDepth s1 := by
  simp only [buildFileTreeItems, h, hs, if_true]

theorem items_unfold_file {ctx : Ctx} {repo n p url : String} {size : Nat}
    {rest : List RemoteEntry} {depth maxDepth : Nat} {s s1 : St}
    (h : checkpoint ctx s = (false, s1))
    (hs : shouldSkipName (RemoteEntry.file n p url size).entryName = false) :
    buildFileTreeItems ctx repo (RemoteEntry.file n p url size :: rest)
        depth maxDepth s =
      consChild (fileNode n p url size depth maxDepth)
        (buildFileTreeItems ctx repo rest depth maxDepth s1) := by
  simp only [buildFileTreeItems, h, hs]
  rfl

theorem items_unfold_dirOk {ctx : Ctx} {repo n p : String}
    {sub rest : List RemoteEntry} {depth maxDepth : Nat} {s s1 : St}
    (h : checkpoint ctx s = (false, s1))
    (hs : shouldSkipName (RemoteEntry.dirOk n p sub).entryName = false) :
    buildFileTreeItems ctx repo (RemoteEntry.dirOk n p sub :: rest)
        depth maxDepth s =
      (match buildFileTreeWithCancellation ctx repo p (.ok sub) (depth + 1)
          maxDepth s1 with
       | (.error e, s2) => (.error e, s2)
       | (.ok subTree, s2) =>
         consChild (dirChildNode n p depth maxDepth subTree)
           (buildFileTreeItems ctx repo rest depth maxDepth s2)) := by
  simp only [buildFileTreeItems, h, hs]
  rfl

theorem items_unfold_dirErr {ctx : Ctx} {repo n p statusText : String}
    {code : Nat} {rest : List RemoteEntry} {depth maxDepth : Nat} {s s1 : St}
    (h : checkpoint ctx s = (false, s1))
    (hs : shouldSkipName (RemoteEntry.dirErr n p code statusText).entryName =
      false) :
    buildFileTreeItems ctx repo
        (RemoteEntry.dirErr n p code statusText :: rest) depth maxDepth s =
      (match buildFileTreeWithCancellation ctx repo p
          (.httpStatus code statusText) (depth + 1) maxDepth s1 with
       | (.error e, s2) => (.error e, s2)
       | (.ok subTree, s2) =>
         consChild (dirChildNode n p depth maxDepth subTree)
           (buildFileTreeItems ctx repo rest depth maxDepth s2)) := by
  simp only [buildFileTreeItems, h, hs]
  rfl

/-! ## Progress arithmetic -/

theorem jsRound_le {q : ℚ} {n : ℤ} (h : q ≤ (n : ℚ)) : jsRound q ≤ n := by
  have h2 : jsRound q < n + 1 := by
    rw [show jsRound q = ⌊q + 1 / 2⌋ from rfl, Int.floor_lt]
    push_cast
    linarith
  omega

theorem progressValue_le_90 (depth maxDepth : Nat) :
    progressValue depth maxDepth ≤ 90 := by
  unfold progressValue jsMinQ
  split
  · assumption
  · linarith

theorem checkpoint_eq_snd {ctx : Ctx} {s : St} {b : Bool} {s1 : St}
    (h : checkpoint ctx s = (b, s1)) : s1 = { s with tick := s.tick + 1 } := by
  simp [checkpoint] at h
  exact h.2.symm

theorem goodSt_of_checkpoint {ctx : Ctx} {s : St} {b : Bool} {s1 : St}
    (h : checkpoint ctx s = (b, s1)) (hg : GoodSt s) : GoodSt s1 := by
  rw [checkpoint_eq_snd h]
  exact hg

theorem goodSt_st0 : GoodSt st0 := by
  refine ⟨?_, ?_, ?_⟩ <;> simp [st0, GoodSt]

theorem goodSt_progressUpdate (depth maxDepth : Nat) (s : St)
    (h : GoodSt s) : GoodSt (progressUpdate depth maxDepth s) := by
  obtain ⟨h1, h2, h3⟩ := h
  have hle : jsRound (progressValue depth maxDepth) ≤ 90 :=
    jsRound_le (by exact_mod_cast progressValue_le_90 depth maxDepth)
  refine ⟨?_, ?_, ?_⟩
  · rw [progressUpdate]
    rw [List.chain'_append]
    refine ⟨h1, List.chain'_singleton _, ?_⟩
    intro x hx y hy
    rw [h2] at hx
    simp at hx hy
    subst hx
    subst hy
    exact le_max_left _ _
  · rw [progressUpdate]
    simp [List.getLast?_concat]
  · rw [progressUpdate]
    simp only
    exact max_le h3 hle

/-- State well-formedness is preserved by the crawl: whatever the remote
and the cancellation schedule, the sequence of stored progress values stays
a non-decreasing chain ending at the current `progress` field, bounded by
90 during the crawl. -/
theorem crawl_goodSt (ctx : Ctx) (repo : String) :
    (∀ (path : String) (fetch : RootFetch) (depth maxDepth : Nat) (s : St),
      GoodSt s →
        GoodSt (buildFileTreeWithCancellation ctx repo path fetch depth
          maxDepth s).2) ∧
    (∀ (items : List RemoteEntry) (depth maxDepth : Nat) (s : St),
      GoodSt s →
        GoodSt (buildFileTreeItems ctx repo items depth maxDepth s).2) := by
  refine buildFileTreeWithCancellation.mutual_induct ctx repo
    (fun path fetch depth maxDepth s =>
      GoodSt s →
        GoodSt (buildFileTreeWithCancellation ctx repo path fetch depth
          maxDepth s).2)
    (fun items depth maxDepth s =>
      GoodSt s →
        GoodSt (buildFileTreeItems ctx repo items depth maxDepth s).2)
    ?_ ?_ ?_ ?_ ?_ ?_ ?_ ?_ ?_
  · -- the single buildFileTreeWithCancellation case
    intro path fetch depth maxDepth s IH hGood
    rcases hcp : checkpoint ctx s with ⟨b, s1⟩
    have hs1 : GoodSt s1 := goodSt_of_checkpoint hcp hGood
    cases b with
    | true =>
      rw [crawl_unfold_cancelled hcp]
      exact hs1
    | false =>
      rw [crawl_unfold_run hcp, wrapGH_snd]
      by_cases hd : depth ≥ maxDepth
      · simp only [if_pos hd]
        exact goodSt_progressUpdate _ _ _ hs1
      · simp only [if_neg hd]
        cases fetch with
        | httpStatus code statusText =>
          exact goodSt_progressUpdate _ _ _ hs1
        | ok items =>
          rw [assembleDir_snd]
          have hIH := IH s1
          simp only at hIH
          exact hIH (goodSt_progressUpdate _ _ _ hs1)
  · -- items: nil
    intro depth maxDepth s hGood
    rw [items_unfold_nil]
    exact hGood
  · -- items: cancelled
    intro depth maxDepth s item rest s1 hcp hGood
    rw [items_unfold_cancelled hcp]
    exact goodSt_of_checkpoint hcp hGood
  · -- items: skipped entry
    intro depth maxDepth s item rest s1 hcp hskip IH hGood
    rw [items_unfold_skip hcp hskip]
    exact IH (goodSt_of_checkpoint hcp hGood)
  · -- items: file entry
    intro depth maxDepth s rest s1 hcp n p url size hskip IH hGood
    rw [items_unfold_file hcp (by simpa using hskip), consChild_snd]
    exact IH (goodSt_of_checkpoint hcp hGood)
  · -- items: dirOk entry whose recursive call throws
    intro depth maxDepth s rest s1 hcp n p sub e s2 hsub hskip IH1 hGood
    rw [items_unfold_dirOk hcp (by simpa using hskip), hsub]
    have h := IH1 (goodSt_of_checkpoint hcp hGood)
    rw [hsub] at h
    exact h
  · -- items: dirOk entry whose recursive call returns a subtree
    intro depth maxDepth s rest s1 hcp n p sub t s2 hsub hskip IH1 IH2 hGood
    rw [items_unfold_dirOk hcp (by simpa using hskip), hsub, consChild_snd]
    have h := IH1 (goodSt_of_checkpoint hcp hGood)
    rw [hsub] at h
    exact IH2 h
  · -- items: dirErr entry whose recursive call throws
    intro depth maxDepth s rest s1 hcp n p code statusText e s2 hsub hskip IH1
      hGood
    rw [items_unfold_dirErr hcp (by simpa using hskip), hsub]
    have h := IH1 (goodSt_of_checkpoint hcp hGood)
    rw [hsub] at h
    exact h
  · -- items: dirErr entry whose recursive call returns a subtree
    intro depth maxDepth s rest s1 hcp n p code statusText t s2 hsub hskip IH1
      IH2 hGood
    rw [items_unfold_dirErr hcp (by simpa using hskip), hsub, consChild_snd]
    have h := IH1 (goodSt_of_checkpoint hcp hGood)
    rw [hsub] at h
    exact IH2 h

/-! ## Tree-invariant lemmas -/

theorem TreeInv_node {d abs : Nat} {isRoot : Bool} {nd : NodeData}
    {ch : List TreeNode} :
    TreeInv d abs isRoot (.node nd ch) ↔
      NodeInv d abs isRoot (.node nd ch) ∧ TreeListInv d (abs + 1) ch := by
  rw [TreeInv]

theorem TreeListInv_nil {d abs : Nat} : TreeListInv d abs [] := by
  rw [TreeListInv]
  trivial

theorem TreeListInv_cons {d abs : Nat} {c : TreeNode} {cs : List TreeNode} :
    TreeListInv d abs (c :: cs) ↔ TreeInv d abs false c ∧ TreeListInv d abs cs := by
  rw [TreeListInv]

theorem treeInv_truncNode {repo path : String} {depth maxDepth : Nat}
    (h : depth ≤ maxDepth) :
    TreeInv maxDepth depth true (truncNode repo path depth maxDepth) := by
  rw [truncNode, TreeInv_node]
  refine ⟨?_, TreeListInv_nil⟩
  refine ⟨?_, ?_, ?_, ?_, ?_, ?_⟩ <;>
    simp [TreeNode.dataOf, TreeNode.childrenOf]
  exact h

theorem treeInv_errNode {repo path : String} {depth maxDepth : Nat}
    {msg : String} (h : depth < maxDepth) :
    TreeInv maxDepth depth true (errNode repo path depth msg) := by
  rw [errNode, TreeInv_node]
  refine ⟨?_, TreeListInv_nil⟩
  refine ⟨?_, ?_, ?_, ?_, ?_, ?_⟩ <;>
    simp [TreeNode.dataOf, TreeNode.childrenOf]
  · omega
  · omega

theorem treeInv_folderNode {repo path : String} {depth maxDepth : Nat}
    {ch : List TreeNode} (h : depth < maxDepth)
    (hch : TreeListInv maxDepth (depth + 1) ch) :
    TreeInv maxDepth depth true (folderNode repo path depth maxDepth ch) := by
  rw [folderNode, TreeInv_node]
  refine ⟨?_, hch⟩
  refine ⟨?_, ?_, ?_, ?_, ?_, ?_⟩ <;>
    simp [TreeNode.dataOf, TreeNode.childrenOf] <;> omega

theorem treeInv_fileNode {n p url : String} {size depth maxDepth : Nat}
    (h : depth < maxDepth) (hskip : shouldSkipName n = false) :
    TreeInv maxDepth (depth + 1) false (fileNode n p url size depth maxDepth) := by
  rw [fileNode, TreeInv_node]
  refine ⟨?_, TreeListInv_nil⟩
  refine ⟨?_, ?_, ?_, ?_, ?_, ?_⟩ <;>
    simp [TreeNode.dataOf, TreeNode.childrenOf]
  · omega
  · omega
  · exact hskip

theorem jsOrNat_le {o : Option Nat} {dflt bound : Nat} (hd : dflt ≤ bound)
    (ho : ∀ a, o = some a → a ≤ bound) : jsOrNat o dflt ≤ bound := by
  cases o with
  | none => simpa [jsOrNat] using hd
  | some b =>
    by_cases hb : b = 0
    · simpa [jsOrNat, hb] using hd
    · simpa [jsOrNat, hb] using ho b rfl

theorem treeInv_dirChildNode {n p : String} {depth maxDepth : Nat}
    {t : TreeNode} (hlt : depth < maxDepth)
    (hskip : shouldSkipName n = false)
    (hkind : t.dataOf.kind = NodeType.folder)
    (hinv : TreeInv maxDepth (depth + 1) true t) :
    TreeInv maxDepth (depth + 1) false
      (dirChildNode n p depth maxDepth t) := by
  cases t with
  | node nd ch =>
    rw [TreeInv_node] at hinv
    obtain ⟨⟨_, hact, htr, _, hatd, _⟩, hch⟩ := hinv
    simp only [TreeNode.dataOf, TreeNode.childrenOf] at hkind hact htr hatd
    rw [dirChildNode, TreeInv_node]
    simp only [NodeInv, TreeNode.dataOf, TreeNode.childrenOf]
    refine ⟨⟨?_, ?_, ?_, ?_, ?_, ?_⟩, hch⟩
    · intro a ha
      simp only [Option.some.injEq] at ha
      omega
    · intro a ha
      simp only [Option.some.injEq] at ha
      rw [← ha]
      exact jsOrNat_le (by omega) hact
    · intro htrunc
      exact htr htrunc
    · intro herr
      simp at herr
    · intro habs _
      exact hatd habs hkind
    · intro _
      exact ⟨hskip, trivial⟩

theorem statusResult_ok {repo path : String} {depth maxDepth code : Nat}
    {statusText : String} {t : TreeNode}
    (h : statusResult repo path depth maxDepth code statusText = .ok t) :
    (∃ msg, t = errNode repo path depth msg) ∨
      t = folderNode repo path depth maxDepth [] := by
  unfold statusResult at h
  split_ifs at h with h1 h2 h3 h4 <;> simp at h
  · exact Or.inl ⟨_, h.symm⟩
  · exact Or.inl ⟨_, h.symm⟩
  · exact Or.inr h.symm

/-- The structural invariant of every successfully crawled (sub)tree: the
root of a call at depth `depth ≤ maxDepth` is a folder node, and every node
of the result satisfies `NodeInv` at its position. -/
theorem crawl_treeInv (ctx : Ctx) (repo : String) :
    (∀ (path : String) (fetch : RootFetch) (depth maxDepth : Nat) (s : St)
        (t : TreeNode) (s2 : St), depth ≤ maxDepth →
        buildFileTreeWithCancellation ctx repo path fetch depth maxDepth s =
          (.ok t, s2) →
        t.dataOf.kind = NodeType.folder ∧ TreeInv maxDepth depth true t) ∧
    (∀ (items : List RemoteEntry) (depth maxDepth : Nat) (s : St)
        (ns : List TreeNode) (s2 : St), depth < maxDepth →
        buildFileTreeItems ctx repo items depth maxDepth s = (.ok ns, s2) →
        TreeListInv maxDepth (depth + 1) ns) := by
  refine buildFileTreeWithCancellation.mutual_induct ctx repo
    (fun path fetch depth maxDepth s =>
      ∀ (t : TreeNode) (s2 : St), depth ≤ maxDepth →
        buildFileTreeWithCancellation ctx repo path fetch depth maxDepth s =
          (.ok t, s2) →
        t.dataOf.kind = NodeType.folder ∧ TreeInv maxDepth depth true t)
    (fun items depth maxDepth s =>
      ∀ (ns : List TreeNode) (s2 : St), depth < maxDepth →
        buildFileTreeItems ctx repo items depth maxDepth s = (.ok ns, s2) →
        TreeListInv maxDepth (depth + 1) ns)
    ?_ ?_ ?_ ?_ ?_ ?_ ?_ ?_ ?_
  · -- the single buildFileTreeWithCancellation case
    intro path fetch depth maxDepth s IH t s2 hle hok
    rcases hcp : checkpoint ctx s with ⟨b, s1⟩
    cases b with
    | true =>
      rw [crawl_unfold_cancelled hcp] at hok
      simp at hok
    | false =>
      rw [crawl_unfold_run hcp, wrapGH_eq_ok] at hok
      by_cases hd : depth ≥ maxDepth
      · rw [if_pos hd] at hok
        have ht : t = truncNode repo path depth maxDepth := by
          simp [Prod.ext_iff] at hok
          exact hok.1.symm
        subst ht
        exact ⟨rfl, treeInv_truncNode hle⟩
      · rw [if_neg hd] at hok
        cases fetch with
        | httpStatus code statusText =>
          have hsr :
              statusResult repo path depth maxDepth code statusText =
                .ok t := by
            simp [Prod.ext_iff] at hok
            exact hok.1
          rcases statusResult_ok hsr with ⟨msg, ht⟩ | ht <;> subst ht
          · exact ⟨rfl, treeInv_errNode (by omega)⟩
          · exact ⟨rfl, treeInv_folderNode (by omega) TreeListInv_nil⟩
        | ok items =>
          rw [assembleDir_eq_ok] at hok
          obtain ⟨ns, hitems, ht⟩ := hok
          subst ht
          have hIH := IH s1
          simp only at hIH
          exact ⟨rfl, treeInv_folderNode (by omega)
            (hIH ns s2 (by omega) hitems)⟩
  · -- items: nil
    intro depth maxDepth s ns s2 _ hok
    rw [items_unfold_nil] at hok
    simp [Prod.ext_iff] at hok
    rw [hok.1]
    exact TreeListInv_nil
  · -- items: cancelled
    intro depth maxDepth s item rest s1 hcp ns s2 _ hok
    rw [items_unfold_cancelled hcp] at hok
    simp at hok
  · -- items: skipped entry
    intro depth maxDepth s item rest s1 hcp hskip IH ns s2 hlt hok
    rw [items_unfold_skip hcp hskip] at hok
    exact IH ns s2 hlt hok
  · -- items: file entry
    intro depth maxDepth s rest s1 hcp n p url size hskip IH ns s2 hlt hok
    rw [items_unfold_file hcp (by simpa using hskip), consChild_eq_ok] at hok
    obtain ⟨ns2, hrest, hcons⟩ := hok
    subst hcons
    rw [TreeListInv_cons]
    exact ⟨treeInv_fileNode hlt
      (by simpa [RemoteEntry.entryName] using hskip), IH ns2 s2 hlt hrest⟩
  · -- items: dirOk entry whose recursive call throws
    intro depth maxDepth s rest s1 hcp n p sub e s2 hsub hskip IH1 ns s3 hlt
      hok
    rw [items_unfold_dirOk hcp (by simpa using hskip), hsub] at hok
    simp at hok
  · -- items: dirOk entry whose recursive call returns a subtree
    intro depth maxDepth s rest s1 hcp n p sub t s2 hsub hskip IH1 IH2 ns s3
      hlt hok
    rw [items_unfold_dirOk hcp (by simpa using hskip), hsub,
      consChild_eq_ok] at hok
    obtain ⟨ns2, hrest, hcons⟩ := hok
    subst hcons
    have hsubinv := IH1 t s2 (by omega) hsub
    rw [TreeListInv_cons]
    exact ⟨treeInv_dirChildNode hlt
      (by simpa [RemoteEntry.entryName] using hskip) hsubinv.1 hsubinv.2,
      IH2 ns2 s3 hlt hrest⟩
  · -- items: dirErr entry whose recursive call throws
    intro depth maxDepth s rest s1 hcp n p code statusText e s2 hsub hskip IH1
      ns s3 hlt hok
    rw [items_unfold_dirErr hcp (by simpa using hskip), hsub] at hok
    simp at hok
  · -- items: dirErr entry whose recursive call returns a subtree
    intro depth maxDepth s rest s1 hcp n p code statusText t s2 hsub hskip IH1
      IH2 ns s3 hlt hok
    rw [items_unfold_dirErr hcp (by simpa using hskip), hsub,
      consChild_eq_ok] at hok
    obtain ⟨ns2, hrest, hcons⟩ := hok
    subst hcons
    have hsubinv := IH1 t s2 (by omega) hsub
    rw [TreeListInv_cons]
    exact ⟨treeInv_dirChildNode hlt
      (by simpa [RemoteEntry.entryName] using hskip) hsubinv.1 hsubinv.2,
      IH2 ns2 s3 hlt hrest⟩

theorem benignList_cons {e : RemoteEntry} {rest : List RemoteEntry} :
    benignList (e :: rest) = (benignEntry e && benignList rest) := by
  rw [benignList]

theorem statusResult_benign {repo path : String} {depth maxDepth code : Nat}
    {statusText : String} (h : (code == 404 || code == 403) = true) :
    ∃ t, statusResult repo path depth maxDepth code statusText = .ok t := by
  simp at h
  rcases h with h | h <;> subst h <;> simp [statusResult]

/-- With only 404/403 failures in the remote and no cancellation request,
the crawl never throws: it returns a tree. -/
theorem crawl_no_abort (ctx : Ctx) (repo : String)
    (hnc : ctx.cancelFrom = none) :
    (∀ (path : String) (fetch : RootFetch) (depth maxDepth : Nat) (s : St),
      benignFetch fetch = true →
      ∃ t s2, buildFileTreeWithCancellation ctx repo path fetch depth maxDepth
        s = (.ok t, s2)) ∧
    (∀ (items : List RemoteEntry) (depth maxDepth : Nat) (s : St),
      benignList items = true →
      ∃ ns s2, buildFileTreeItems ctx repo items depth maxDepth s =
        (.ok ns, s2)) := by
  refine buildFileTreeWithCancellation.mutual_induct ctx repo
    (fun path fetch depth maxDepth s =>
      benignFetch fetch = true →
      ∃ t s2, buildFileTreeWithCancellation ctx repo path fetch depth maxDepth
        s = (.ok t, s2))
    (fun items depth maxDepth s =>
      benignList items = true →
      ∃ ns s2, buildFileTreeItems ctx repo items depth maxDepth s =
        (.ok ns, s2))
    ?_ ?_ ?_ ?_ ?_ ?_ ?_ ?_ ?_
  · intro path fetch depth maxDepth s IH hb
    have hcp := checkpoint_none hnc s
    by_cases hd : depth ≥ maxDepth
    · rw [crawl_unfold_trunc hcp hd]
      exact ⟨_, _, rfl⟩
    · cases fetch with
      | httpStatus code statusText =>
        obtain ⟨t, ht⟩ : ∃ t,
            statusResult repo path depth maxDepth code statusText = .ok t :=
          statusResult_benign (by simpa [benignFetch] using hb)
        rw [crawl_unfold_status hcp hd, ht]
        exact ⟨_, _, rfl⟩
      | ok items =>
        have hIH := IH { s with tick := s.tick + 1 }
        simp only at hIH
        obtain ⟨ns, s2, hitems⟩ := hIH (by simpa [benignFetch] using hb)
        rw [crawl_unfold_listing hcp hd, hitems]
        exact ⟨_, _, rfl⟩
  · intro depth maxDepth s _
    exact ⟨_, _, items_unfold_nil ctx repo depth maxDepth s⟩
  · intro depth maxDepth s item rest s1 hcp
    rw [checkpoint_none hnc] at hcp
    simp at hcp
  · intro depth maxDepth s item rest s1 hcp hskip IH hb
    rw [benignList_cons, Bool.and_eq_true] at hb
    obtain ⟨ns, s2, hrest⟩ := IH hb.2
    exact ⟨ns, s2, by rw [items_unfold_skip hcp hskip]; exact hrest⟩
  · intro depth maxDepth s rest s1 hcp n p url size hskip IH hb
    rw [benignList_cons, Bool.and_eq_true] at hb
    obtain ⟨ns, s2, hrest⟩ := IH hb.2
    refine ⟨fileNode n p url size depth maxDepth :: ns, s2, ?_⟩
    rw [items_unfold_file hcp (by simpa using hskip), hrest]
    rfl
  · intro depth maxDepth s rest s1 hcp n p sub e s2 hsub hskip IH1 hb
    rw [benignList_cons, Bool.and_eq_true] at hb
    obtain ⟨t, s3, hok⟩ := IH1 (by simpa [benignFetch, benignEntry] using hb.1)
    rw [hok] at hsub
    simp at hsub
  · intro depth maxDepth s rest s1 hcp n p sub t s2 hsub hskip IH1 IH2 hb
    rw [benignList_cons, Bool.and_eq_true] at hb
    obtain ⟨ns, s3, hrest⟩ := IH2 hb.2
    refine ⟨dirChildNode n p depth maxDepth t :: ns, s3, ?_⟩
    rw [items_unfold_dirOk hcp (by simpa using hskip), hsub]
    show consChild (dirChildNode n p depth maxDepth t)
      (buildFileTreeItems ctx repo rest depth maxDepth s2) = _
    rw [hrest]
    rfl
  · intro depth maxDepth s rest s1 hcp n p code statusText e s2 hsub hskip IH1
      hb
    rw [benignList_cons, Bool.and_eq_true] at hb
    obtain ⟨t, s3, hok⟩ := IH1 (by simpa [benignFetch, benignEntry] using hb.1)
    rw [hok] at hsub
    simp at hsub
  · intro depth maxDepth s rest s1 hcp n p code statusText t s2 hsub hskip IH1
      IH2 hb
    rw [benignList_cons, Bool.and_eq_true] at hb
    obtain ⟨ns, s3, hrest⟩ := IH2 hb.2
    refine ⟨dirChildNode n p depth maxDepth t :: ns, s3, ?_⟩
    rw [items_unfold_dirErr hcp (by simpa using hskip), hsub]
    show consChild (dirChildNode n p depth maxDepth t)
      (buildFileTreeItems ctx repo rest depth maxDepth s2) = _
    rw [hrest]
    rfl

theorem treeListInv_mem {d abs : Nat} {cs : List TreeNode}
    (h : TreeListInv d abs cs) {c : TreeNode} (hc : c ∈ cs) :
    TreeInv d abs false c := by
  induction cs with
  | nil => simp at hc
  | cons x xs ih =>
    rw [TreeListInv_cons] at h
    rcases List.mem_cons.mp hc with rfl | hc
    · exact h.1
    · exact ih h.2 hc

/-- Transport of the crawl invariant to the nodes at a given structural
depth: a node at depth `j` below a subtree rooted at absolute depth `abs`
sits at absolute depth `abs + j`, and is non-root unless `j = 0` at the
root. -/
theorem treeInv_nodesAt {d : Nat} :
    ∀ (j abs : Nat) (isRoot : Bool) (t : TreeNode), TreeInv d abs isRoot t →
      ∀ n ∈ nodesAt j t, NodeInv d (abs + j) (isRoot && decide (j = 0)) n := by
  intro j
  induction j with
  | zero =>
    intro abs isRoot t hinv n hn
    simp [nodesAt] at hn
    subst hn
    cases n with
    | node nd ch =>
      rw [TreeInv_node] at hinv
      simpa using hinv.1
  | succ j ih =>
    intro abs isRoot t hinv n hn
    cases t with
    | node nd ch =>
      rw [TreeInv_node] at hinv
      simp only [nodesAt, List.mem_flatten, List.mem_map] at hn
      obtain ⟨l, ⟨c, hc, hl⟩, hnl⟩ := hn
      subst hl
      have hcinv := treeListInv_mem hinv.2 hc
      have hres := ih (abs + 1) false c hcinv n hnl
      have harith : abs + 1 + j = abs + (j + 1) := by omega
      rw [harith] at hres
      simpa using hres

/-- The reconciler never counts an entry matching its denylist test:
dropping those entries beforehand leaves the totals unchanged. -/
theorem calculateTotalCounts_filter (items : List FlatItem) :
    calculateTotalCounts items =
      calculateTotalCounts
        (items.filter fun it => !shouldSkipFlat it.path) := by
  induction items with
  | nil => rfl
  | cons it rest ih =>
    rw [calculateTotalCounts, List.filter_cons]
    by_cases h : shouldSkipFlat it.path
    · rw [if_pos h, ih]
      simp [h]
    · rw [if_neg h]
      simp only [h, Bool.not_false, if_true]
      rw [calculateTotalCounts, if_neg h, ih]

/-! ## Concrete progress evaluations -/

theorem jsRound_ten : jsRound (10 : ℚ) = 10 := by
  unfold jsRound
  rw [Int.floor_eq_iff] <;> norm_num

theorem jsRound_twentysix : jsRound (26 : ℚ) = 26 := by
  unfold jsRound
  rw [Int.floor_eq_iff] <;> norm_num

theorem progressValue_depth0 (m : Nat) : progressValue 0 m = 10 := by
  unfold progressValue jsMinQ
  norm_num

theorem progressValue_1_5 : progressValue 1 5 = 26 := by
  unfold progressValue jsMinQ
  norm_num

theorem jsRound_progressValue_depth0 (m : Nat) :
    jsRound (progressValue 0 m) = 10 := by
  rw [progressValue_depth0]
  exact jsRound_ten

theorem jsRound_progressValue_1_5 : jsRound (progressValue 1 5) = 26 := by
  rw [progressValue_1_5]
  exact jsRound_twentysix

theorem progressUpdate_st {depth m : Nat} (tick : Nat) (p : ℤ) (tr : List ℤ)
    {v newv : ℤ} {newtr : List ℤ} (hv : jsRound (progressValue depth m) = v)
    (hmax : max p v = newv) (htr : tr ++ [newv] = newtr) :
    progressUpdate depth m { tick := tick, progress := p, trace := tr } =
      { tick := tick, progress := newv, trace := newtr } := by
  unfold progressUpdate
  rw [hv, hmax]
  dsimp only
  rw [htr]

theorem checkpoint_some_eq {c : Nat} {s : St} {b : Bool}
    (h : decide (c ≤ s.tick) = b) :
    checkpoint (Ctx.mk (some c)) s = (b, { s with tick := s.tick + 1 }) := by
  rw [← h]
  rfl

theorem routeCatch_ne_ok (msg : String) : routeCatch msg ≠ Response.okJson := by
  unfold routeCatch
  split_ifs <;> simp

theorem goodSt_append100 {s : St} (h : GoodSt s) :
    (s.trace ++ [100]).Chain' (· ≤ ·) ∧
      (s.trace ++ [100]).getLast? = some 100 := by
  obtain ⟨h1, h2, h3⟩ := h
  constructor
  · rw [List.chain'_append]
    refine ⟨h1, List.chain'_singleton _, ?_⟩
    intro x hx y hy
    rw [h2] at hx
    simp at hx hy
    subst hx
    subst hy
    omega
  · simp [List.getLast?_concat]

/-! ## Claim C1 -/

/-- C1: for every crawl invoked with depth bound `d` (initial call of
`buildFileTreeWithCancellation` at depth 0 with `maxDepth = d`) that
returns a tree, (i) no node records a depth (`depth`/`actualDepth` field)
greater than `d`, (ii) every folder node at structural depth exactly `d` is
marked `truncated` with an empty children list, and (iii) any folder node
whose `truncated` flag is set has an empty children sequence. -/
theorem C1_depth_bound_and_truncation (ctx : Ctx) (repo : String)
    (fetch : RootFetch) (d : Nat) (t : TreeNode) (s2 : St)
    (h : buildFileTreeWithCancellation ctx repo "" fetch 0 d st0 =
      (.ok t, s2)) :
    (∀ (j : Nat), ∀ n ∈ nodesAt j t,
      (∀ a, n.dataOf.depthF = some a → a ≤ d) ∧
      (∀ a, n.dataOf.actualDepthF = some a → a ≤ d)) ∧
    (∀ n ∈ nodesAt d t, n.dataOf.kind = NodeType.folder →
      n.dataOf.truncated = true ∧ n.childrenOf = []) ∧
    (∀ (j : Nat), ∀ n ∈ nodesAt j t, n.dataOf.truncated = true →
      n.childrenOf = []) := by
  have hinv :=
    ((crawl_treeInv ctx repo).1 "" fetch 0 d st0 t s2 (Nat.zero_le d) h).2
  have hbridge := fun j => treeInv_nodesAt j 0 true t hinv
  refine ⟨?_, ?_, ?_⟩
  · intro j n hn
    have hb := hbridge j n hn
    exact ⟨hb.1, hb.2.1⟩
  · intro n hn hkind
    have hb := hbridge d n hn
    exact hb.2.2.2.2.1 (by omega) hkind
  · intro j n hn
    exact (hbridge j n hn).2.2.1

/-- Witness for C1: a crawl of a repository with one file, `maxDepth = 5`. -/
theorem C1_witness :
    (∀ (j : Nat), ∀ n ∈ nodesAt j
        (folderNode "r" "" 0 5 [fileNode "a.txt" "a.txt" "u" 3 0 5]),
      (∀ a, n.dataOf.depthF = some a → a ≤ 5) ∧
      (∀ a, n.dataOf.actualDepthF = some a → a ≤ 5)) ∧
    (∀ n ∈ nodesAt 5
        (folderNode "r" "" 0 5 [fileNode "a.txt" "a.txt" "u" 3 0 5]),
      n.dataOf.kind = NodeType.folder →
        n.dataOf.truncated = true ∧ n.childrenOf = []) ∧
    (∀ (j : Nat), ∀ n ∈ nodesAt j
        (folderNode "r" "" 0 5 [fileNode "a.txt" "a.txt" "u" 3 0 5]),
      n.dataOf.truncated = true → n.childrenOf = []) :=
  C1_depth_bound_and_truncation ctxNone "r"
    (.ok [RemoteEntry.file "a.txt" "a.txt" "u" 3]) 5
    (folderNode "r" "" 0 5 [fileNode "a.txt" "a.txt" "u" 3 0 5])
    { tick := 2, progress := 10, trace := [0, 10] }
    (by
      have h1 : max (0 : ℤ) 10 = 10 := by omega
      rw [crawl_unfold_listing (@checkpoint_none ctxNone rfl st0) (by omega)]
      show wrapGH (assembleDir "r" "" 0 5 (buildFileTreeItems ctxNone "r"
        [RemoteEntry.file "a.txt" "a.txt" "u" 3] 0 5
        (progressUpdate 0 5 { tick := 1, progress := 0, trace := [0] }))) = _
      rw [progressUpdate_st 1 0 [0] (jsRound_progressValue_depth0 5) h1 rfl]
      rw [items_unfold_file (@checkpoint_none ctxNone rfl _) (by decide)]
      rw [items_unfold_nil]
      rfl)

/-! ## Claim C2 -/

/-- C2 (evaluation at the failing input): a cancellation observed while the
crawl is in progress — here the cancel request lands while the root listing
is awaited, so the first per-item flag read (read index 1) sees it — makes
`buildFileTreeWithCancellation` throw `Analysis cancelled by user`, which
its own catch rewraps as `GitHub API error: Analysis cancelled by user`.
The route's catch therefore misses its `error.message === 'Analysis
cancelled by user'` test (part_007 line 712) and answers with the *generic
500* response instead of the dedicated 499 cancellation response.  No
record is persisted (that half of the claim holds). -/
theorem C2_midcrawl_cancellation_reported_as_500 :
    analyzeRoute (Ctx.mk (some 1)) "https://github.com/o/r" "r"
      (.ok [RemoteEntry.file "a.txt" "a.txt" "u" 3]) (.intVal 5)
      (some [⟨"a.txt", FlatType.blob⟩]) =
    (Response.serverError500 "GitHub API error: Analysis cancelled by user",
     none, [0, 10]) := by
  have hc : buildFileTreeWithCancellation (Ctx.mk (some 1)) "r" ""
      (.ok [RemoteEntry.file "a.txt" "a.txt" "u" 3]) 0 5 st0 =
      (.error "GitHub API error: Analysis cancelled by user",
       { tick := 2, progress := 10, trace := [0, 10] }) := by
    have h1 : max (0 : ℤ) 10 = 10 := by omega
    rw [crawl_unfold_listing (checkpoint_some_eq (by decide)) (by omega)]
    show wrapGH (assembleDir "r" "" 0 5 (buildFileTreeItems (Ctx.mk (some 1))
      "r" [RemoteEntry.file "a.txt" "a.txt" "u" 3] 0 5
      (progressUpdate 0 5 { tick := 1, progress := 0, trace := [0] }))) = _
    rw [progressUpdate_st 1 0 [0] (jsRound_progressValue_depth0 5) h1 rfl]
    rw [items_unfold_cancelled (checkpoint_some_eq (by decide))]
    rfl
  unfold analyzeRoute
  rw [show (effectiveMaxDepth (ClientMaxDepth.intVal 5)).toNat = 5 from
    by decide, hc]
  rfl

/-! ## Claim C3 -/

/-- C3 (as amended): entries whose *name* matches the crawler's denylist
test never appear in the produced tree (below the synthetic root), and
flattened-listing entries matching the reconciler's denylist test (full
path or basename) never contribute to the totals.  The original claim's
stronger statement — that everything the crawler excludes, including
content *nested beneath* a denylisted folder, is also excluded from the
totals — is false: the reconciler filters the flattened listing entry by
entry, so a descendant whose own path/basename matches no pattern is
counted (see the counterexample). -/
theorem C3_denylist_filtering :
    (∀ (ctx : Ctx) (repo : String) (fetch : RootFetch) (d : Nat)
        (t : TreeNode) (s2 : St),
      buildFileTreeWithCancellation ctx repo "" fetch 0 d st0 = (.ok t, s2) →
      ∀ (j : Nat), ∀ n ∈ nodesAt (j + 1) t,
        shouldSkipName n.dataOf.name = false) ∧
    (∀ items : List FlatItem,
      calculateTotalCounts items =
        calculateTotalCounts
          (items.filter fun it => !shouldSkipFlat it.path)) := by
  constructor
  · intro ctx repo fetch d t s2 h j n hn
    have hinv :=
      ((crawl_treeInv ctx repo).1 "" fetch 0 d st0 t s2 (Nat.zero_le d) h).2
    exact ((treeInv_nodesAt (j + 1) 0 true t hinv n hn).2.2.2.2.2
      (by simp)).1
  · exact calculateTotalCounts_filter

/-- Counterexample for C3 as stated: in a repository whose root contains a
`node_modules` folder holding one file `a.js`, the crawler excludes the
whole folder (the produced tree has no children at all), but the
reconciler still counts the nested file `node_modules/a.js` — its path and
basename match no pattern — so `totalFiles = 1` even though the denylisted
folder's entire content was excluded from the crawl. -/
theorem C3_counterexample_nested_content_counted :
    shouldSkipName "node_modules" = true ∧
    buildFileTreeWithCancellation ctxNone "repo" ""
        (.ok [RemoteEntry.dirOk "node_modules" "node_modules"
          [RemoteEntry.file "a.js" "node_modules/a.js" "u" 1]]) 0 5 st0 =
      (.ok (folderNode "repo" "" 0 5 []),
       { tick := 2, progress := 10, trace := [0, 10] }) ∧
    calculateTotalCounts (flattenRemote
      [RemoteEntry.dirOk "node_modules" "node_modules"
        [RemoteEntry.file "a.js" "node_modules/a.js" "u" 1]]) = (1, 0) := by
  refine ⟨by decide, ?_, by decide⟩
  have h1 : max (0 : ℤ) 10 = 10 := by omega
  rw [crawl_unfold_listing (@checkpoint_none ctxNone rfl st0) (by omega)]
  show wrapGH (assembleDir "repo" "" 0 5 (buildFileTreeItems ctxNone "repo"
    [RemoteEntry.dirOk "node_modules" "node_modules"
      [RemoteEntry.file "a.js" "node_modules/a.js" "u" 1]] 0 5
    (progressUpdate 0 5 { tick := 1, progress := 0, trace := [0] }))) = _
  rw [progressUpdate_st 1 0 [0] (jsRound_progressValue_depth0 5) h1 rfl]
  rw [items_unfold_skip (@checkpoint_none ctxNone rfl _) (by decide)]
  rw [items_unfold_nil]
  rfl

/-- Witness for C3's amended statement at a concrete crawl and a concrete
flattened listing. -/
theorem C3_witness :
    (∀ (j : Nat), ∀ n ∈ nodesAt (j + 1)
        (folderNode "w" "" 0 5 [fileNode "main.ts" "main.ts" "u" 7 0 5]),
      shouldSkipName n.dataOf.name = false) ∧
    calculateTotalCounts [⟨"a/log.txt", FlatType.blob⟩] =
      calculateTotalCounts
        ([⟨"a/log.txt", FlatType.blob⟩].filter
          fun it => !shouldSkipFlat it.path) :=
  ⟨C3_denylist_filtering.1 ctxNone "w"
    (.ok [RemoteEntry.file "main.ts" "main.ts" "u" 7]) 5
    (folderNode "w" "" 0 5 [fileNode "main.ts" "main.ts" "u" 7 0 5])
    { tick := 2, progress := 10, trace := [0, 10] }
    (by
      have h1 : max (0 : ℤ) 10 = 10 := by omega
      rw [crawl_unfold_listing (@checkpoint_none ctxNone rfl st0) (by omega)]
      show wrapGH (assembleDir "w" "" 0 5 (buildFileTreeItems ctxNone "w"
        [RemoteEntry.file "main.ts" "main.ts" "u" 7] 0 5
        (progressUpdate 0 5 { tick := 1, progress := 0, trace := [0] }))) = _
      rw [progressUpdate_st 1 0 [0] (jsRound_progressValue_depth0 5) h1 rfl]
      rw [items_unfold_file (@checkpoint_none ctxNone rfl _) (by decide)]
      rw [items_unfold_nil]
      rfl),
   C3_denylist_filtering.2 [⟨"a/log.txt", FlatType.blob⟩]⟩

/-! ## Claim C4 -/

/-- Counterexample for C4 as stated: a 404 on listing the non-root
directory `sub` produces (inside the recursive call) a node annotated with
`error`, but the parent copies only `children`/`truncated`/`message`/
`actualDepth` when pushing the child (part_007 lines 236-246), so the
folder node that actually appears in the returned tree for `sub` carries
*no* `error` annotation — contradicting "a Folder node annotated with an
error field".  (Its children list is empty and the rest of the crawl
completes.) -/
theorem C4_counterexample_error_annotation_dropped :
    buildFileTreeWithCancellation ctxNone "repo" ""
        (.ok [RemoteEntry.dirErr "sub" "sub" 404 "Not Found"]) 0 5 st0 =
      (.ok (folderNode "repo" "" 0 5
        [dirChildNode "sub" "sub" 0 5
          (errNode "repo" "sub" 1 "Directory not found or access denied")]),
       { tick := 3, progress := 26, trace := [0, 10, 26] }) ∧
    (dirChildNode "sub" "sub" 0 5
      (errNode "repo" "sub" 1
        "Directory not found or access denied")).dataOf.errorMsg = none ∧
    (dirChildNode "sub" "sub" 0 5
      (errNode "repo" "sub" 1
        "Directory not found or access denied")).childrenOf = [] ∧
    (errNode "repo" "sub" 1
      "Directory not found or access denied").dataOf.errorMsg =
        some "Directory not found or access denied" := by
  refine ⟨?_, rfl, rfl, rfl⟩
  have h1 : max (0 : ℤ) 10 = 10 := by omega
  have h2 : max (10 : ℤ) 26 = 26 := by omega
  have hsub : buildFileTreeWithCancellation ctxNone "repo" "sub"
      (.httpStatus 404 "Not Found") 1 5
      { tick := 2, progress := 10, trace := [0, 10] } =
      (.ok (errNode "repo" "sub" 1 "Directory not found or access denied"),
       { tick := 3, progress := 26, trace := [0, 10, 26] }) := by
    rw [crawl_unfold_status (@checkpoint_none ctxNone rfl _) (by omega)]
    show wrapGH (statusResult "repo" "sub" 1 5 404 "Not Found",
      progressUpdate 1 5 { tick := 3, progress := 10, trace := [0, 10] }) = _
    rw [progressUpdate_st 3 10 [0, 10] jsRound_progressValue_1_5 h2 rfl]
    rfl
  rw [crawl_unfold_listing (@checkpoint_none ctxNone rfl st0) (by omega)]
  show wrapGH (assembleDir "repo" "" 0 5 (buildFileTreeItems ctxNone "repo"
    [RemoteEntry.dirErr "sub" "sub" 404 "Not Found"] 0 5
    (progressUpdate 0 5 { tick := 1, progress := 0, trace := [0] }))) = _
  rw [progressUpdate_st 1 0 [0] (jsRound_progressValue_depth0 5) h1 rfl]
  rw [items_unfold_dirErr (@checkpoint_none ctxNone rfl _) (by decide)]
  show wrapGH (assembleDir "repo" "" 0 5
    (match buildFileTreeWithCancellation ctxNone "repo" "sub"
        (RootFetch.httpStatus 404 "Not Found") 1 5
        { tick := 2, progress := 10, trace := [0, 10] } with
     | (Except.error e, s2) => (Except.error e, s2)
     | (Except.ok subTree, s2) =>
       consChild (dirChildNode "sub" "sub" 0 5 subTree)
         (buildFileTreeItems ctxNone "repo" [] 0 5 s2))) = _
  rw [hsub]
  show wrapGH (assembleDir "repo" "" 0 5 (consChild
    (dirChildNode "sub" "sub" 0 5
      (errNode "repo" "sub" 1 "Directory not found or access denied"))
    (buildFileTreeItems ctxNone "repo" [] 0 5
      { tick := 3, progress := 26, trace := [0, 10, 26] }))) = _
  rw [items_unfold_nil]
  rfl

/-- C4 (as amended): when every upstream failure in the remote is a 404 or
403 status and no cancellation arrives, the crawl completes successfully
(non-5xx statuses 404/403 are data, not exceptions); error annotations can
sit only on the root node of the result — a failed non-root directory
appears as a folder whose `error` field was dropped in the parent assembly
— and any node carrying an error annotation has an empty children list. -/
theorem C4_benign_failures_contained (repo : String) (fetch : RootFetch)
    (d : Nat) (hb : benignFetch fetch = true) :
    ∃ t s2,
      buildFileTreeWithCancellation ctxNone repo "" fetch 0 d st0 =
        (.ok t, s2) ∧
      (∀ (j : Nat), ∀ n ∈ nodesAt (j + 1) t, n.dataOf.errorMsg = none) ∧
      (∀ (j : Nat), ∀ n ∈ nodesAt j t,
        n.dataOf.errorMsg ≠ none → n.childrenOf = []) := by
  obtain ⟨t, s2, heq⟩ := (crawl_no_abort ctxNone repo rfl).1 "" fetch 0 d st0 hb
  have hinv :=
    ((crawl_treeInv ctxNone repo).1 "" fetch 0 d st0 t s2 (Nat.zero_le d)
      heq).2
  refine ⟨t, s2, heq, ?_, ?_⟩
  · intro j n hn
    exact ((treeInv_nodesAt (j + 1) 0 true t hinv n hn).2.2.2.2.2
      (by simp)).2
  · intro j n hn
    exact (treeInv_nodesAt j 0 true t hinv n hn).2.2.2.1

/-- Witness for C4's amended statement: the 404-subdirectory repository. -/
theorem C4_witness :
    benignFetch (.ok [RemoteEntry.dirErr "sub" "sub" 404 "Not Found"]) =
      true ∧
    ∃ t s2,
      buildFileTreeWithCancellation ctxNone "repo" ""
          (.ok [RemoteEntry.dirErr "sub" "sub" 404 "Not Found"]) 0 5 st0 =
        (.ok t, s2) ∧
      (∀ (j : Nat), ∀ n ∈ nodesAt (j + 1) t, n.dataOf.errorMsg = none) ∧
      (∀ (j : Nat), ∀ n ∈ nodesAt j t,
        n.dataOf.errorMsg ≠ none → n.childrenOf = []) :=
  ⟨by decide, C4_benign_failures_contained "repo"
    (.ok [RemoteEntry.dirErr "sub" "sub" 404 "Not Found"]) 5 (by decide)⟩

/-! ## Claim C5 -/

/-- C5: within one analysis, every progress write stores
`max(previous, Math.round(Math.min(10 + (depth/maxDepth)*80, 90)))` (third
conjunct, which is the definition of the update), so the whole sequence of
values stored in `percentComplete` over the lifetime of the analysis id —
everything a poller can observe — is non-decreasing; and whenever the route
answers successfully the last stored value is exactly 100. -/
theorem C5_progress_monotone (ctx : Ctx) (repoUrl repo : String)
    (fetch : RootFetch) (clientDepth : ClientMaxDepth)
    (treesListing : Option (List FlatItem)) (resp : Response)
    (rec : Option SavedRecord) (tr : List Int)
    (h : analyzeRoute ctx repoUrl repo fetch clientDepth treesListing =
      (resp, rec, tr)) :
    tr.Chain' (· ≤ ·) ∧
    (resp = Response.okJson → tr.getLast? = some 100) ∧
    (∀ (dep m : Nat) (s1 : St),
      (progressUpdate dep m s1).progress =
        max s1.progress
          (jsRound (jsMinQ (10 + ((dep : ℚ) / (m : ℚ)) * 80) 90))) := by
  unfold analyzeRoute at h
  rcases hcr : buildFileTreeWithCancellation ctx repo "" fetch 0
      (effectiveMaxDepth clientDepth).toNat st0 with ⟨res, sEnd⟩
  rw [hcr] at h
  have hgood : GoodSt sEnd := by
    have hg := (crawl_goodSt ctx repo).1 "" fetch 0
      (effectiveMaxDepth clientDepth).toNat st0 goodSt_st0
    rw [hcr] at hg
    exact hg
  cases res with
  | error msg =>
    dsimp only at h
    rw [Prod.mk.injEq, Prod.mk.injEq] at h
    obtain ⟨hresp, _, htr⟩ := h
    refine ⟨?_, ?_, fun dep m s1 => rfl⟩
    · rw [← htr]
      exact hgood.1
    · intro hok
      rw [← hresp] at hok
      exact absurd hok (routeCatch_ne_ok msg)
  | ok fileTree =>
    dsimp only at h
    split at h <;>
      rw [Prod.mk.injEq, Prod.mk.injEq] at h <;>
      obtain ⟨hresp, _, htr⟩ := h <;>
      refine ⟨?_, ?_, fun dep m s1 => rfl⟩ <;>
      rw [← htr]
    · exact (goodSt_append100 hgood).1
    · intro _
      exact (goodSt_append100 hgood).2
    · exact (goodSt_append100 hgood).1
    · intro _
      exact (goodSt_append100 hgood).2

/-- Witness for C5 at a concrete successful analysis. -/
theorem C5_witness :
    ([0, 10, 100] : List Int).Chain' (· ≤ ·) ∧
    (Response.okJson = Response.okJson →
      ([0, 10, 100] : List Int).getLast? = some 100) ∧
    (∀ (dep m : Nat) (s1 : St),
      (progressUpdate dep m s1).progress =
        max s1.progress
          (jsRound (jsMinQ (10 + ((dep : ℚ) / (m : ℚ)) * 80) 90))) :=
  C5_progress_monotone ctxNone "https://github.com/o/r" "r" (.ok [])
    (.intVal 1) (some []) Response.okJson
    (some { repoUrl := "https://github.com/o/r",
            tree := folderNode "r" "" 0 1 [],
            stats := { analyzedFiles := 0, analyzedFolders := 0,
                       totalFiles := 0, totalFolders := 0 } })
    [0, 10, 100]
    (by
      have h1 : max (0 : ℤ) 10 = 10 := by omega
      have hc : buildFileTreeWithCancellation ctxNone "r" "" (.ok []) 0 1
          st0 =
          (.ok (folderNode "r" "" 0 1 []),
           { tick := 1, progress := 10, trace := [0, 10] }) := by
        rw [crawl_unfold_listing (@checkpoint_none ctxNone rfl st0)
          (by omega)]
        show wrapGH (assembleDir "r" "" 0 1 (buildFileTreeItems ctxNone "r"
          [] 0 1 (progressUpdate 0 1
            { tick := 1, progress := 0, trace := [0] }))) = _
        rw [progressUpdate_st 1 0 [0] (jsRound_progressValue_depth0 1) h1
          rfl]
        rw [items_unfold_nil]
        rfl
      unfold analyzeRoute
      rw [show (effectiveMaxDepth (ClientMaxDepth.intVal 1)).toNat = 1 from
        by decide, hc]
      rfl)

/-! ## Claim C6 -/

/-- The `/analyze` route's success branch, abstractly: with the crawl's
result, the cancellation re-check, both counts, the clamped statistics and
the final trace given as equations, the route's answer follows without
re-evaluating any of the embedded functions. -/
theorem analyzeRoute_ok_eval (ctx : Ctx) (repoUrl repo : String)
    (fetch : RootFetch) (clientDepth : ClientMaxDepth)
    (items : List FlatItem) (m : Nat) (t : TreeNode) (s1 : St)
    (tc ac : Nat × Nat) (st : RepoStats) (tr : List Int)
    (hm : (effectiveMaxDepth clientDepth).toNat = m)
    (hc : buildFileTreeWithCancellation ctx repo "" fetch 0 m st0 =
      (.ok t, s1))
    (hcan : cancelledAt ctx s1.tick = false)
    (htc : calculateTotalCounts items = tc)
    (hac : countAnalyzed true t = ac)
    (hst : ({ analyzedFiles := min ac.1 tc.1,
              analyzedFolders := min ac.2 tc.2,
              totalFiles := tc.1, totalFolders := tc.2 } : RepoStats) = st)
    (htr : s1.trace ++ [100] = tr) :
    analyzeRoute ctx repoUrl repo fetch clientDepth (some items) =
      (Response.okJson,
       some { repoUrl := repoUrl, tree := t, stats := st }, tr) := by
  unfold analyzeRoute
  rw [hm, hc]
  dsimp only
  rw [hcan]
  simp only [Bool.false_eq_true, if_false]
  rw [htc, hac, hst, htr]

/-- Counterexample for C6 as stated: in a repository holding one directory
`a` with one file `a/log.txt`, the crawler keeps the file (its *name*
`log.txt` matches no pattern), but the reconciler skips the flattened entry
`a/log.txt` because the unanchored glob regex for `*.log` matches the full
path (`/log` inside it).  The completed analysis therefore has one file in
the depth-bounded tree while `totalFiles = 0` — the reconciler total is
*not* `≥` the count actually present in the tree.  (The reported
`analyzedFiles` is clamped down to the total, masking the discrepancy.) -/
theorem C6_counterexample_total_below_tree_count :
    analyzeRoute ctxNone "https://github.com/o/r" "r"
        (.ok [RemoteEntry.dirOk "a" "a"
          [RemoteEntry.file "log.txt" "a/log.txt" "u" 3]]) (.intVal 5)
        (some (flattenRemote [RemoteEntry.dirOk "a" "a"
          [RemoteEntry.file "log.txt" "a/log.txt" "u" 3]])) =
      (Response.okJson,
       some { repoUrl := "https://github.com/o/r",
              tree := folderNode "r" "" 0 5
                [dirChildNode "a" "a" 0 5 (folderNode "r" "a" 1 5
                  [fileNode "log.txt" "a/log.txt" "u" 3 1 5])],
              stats := { analyzedFiles := 0, analyzedFolders := 1,
                         totalFiles := 0, totalFolders := 1 } },
       [0, 10, 26, 100]) ∧
    countAnalyzed true (folderNode "r" "" 0 5
      [dirChildNode "a" "a" 0 5 (folderNode "r" "a" 1 5
        [fileNode "log.txt" "a/log.txt" "u" 3 1 5])]) = (1, 1) := by
  refine ⟨?_, by decide⟩
  have h1 : max (0 : ℤ) 10 = 10 := by omega
  have h2 : max (10 : ℤ) 26 = 26 := by omega
  have hsub : buildFileTreeWithCancellation ctxNone "r" "a"
      (.ok [RemoteEntry.file "log.txt" "a/log.txt" "u" 3]) 1 5
      { tick := 2, progress := 10, trace := [0, 10] } =
      (.ok (folderNode "r" "a" 1 5
        [fileNode "log.txt" "a/log.txt" "u" 3 1 5]),
       { tick := 4, progress := 26, trace := [0, 10, 26] }) := by
    rw [crawl_unfold_listing (@checkpoint_none ctxNone rfl _) (by omega)]
    show wrapGH (assembleDir "r" "a" 1 5 (buildFileTreeItems ctxNone "r"
      [RemoteEntry.file "log.txt" "a/log.txt" "u" 3] 1 5
      (progressUpdate 1 5
        { tick := 3, progress := 10, trace := [0, 10] }))) = _
    rw [progressUpdate_st 3 10 [0, 10] jsRound_progressValue_1_5 h2 rfl]
    rw [items_unfold_file (@checkpoint_none ctxNone rfl _) (by decide)]
    rw [items_unfold_nil]
    rfl
  have hc : buildFileTreeWithCancellation ctxNone "r" ""
      (.ok [RemoteEntry.dirOk "a" "a"
        [RemoteEntry.file "log.txt" "a/log.txt" "u" 3]]) 0 5 st0 =
      (.ok (folderNode "r" "" 0 5
        [dirChildNode "a" "a" 0 5 (folderNode "r" "a" 1 5
          [fileNode "log.txt" "a/log.txt" "u" 3 1 5])]),
       { tick := 4, progress := 26, trace := [0, 10, 26] }) := by
    rw [crawl_unfold_listing (@checkpoint_none ctxNone rfl st0) (by omega)]
    show wrapGH (assembleDir "r" "" 0 5 (buildFileTreeItems ctxNone "r"
      [RemoteEntry.dirOk "a" "a"
        [RemoteEntry.file "log.txt" "a/log.txt" "u" 3]] 0 5
      (progressUpdate 0 5 { tick := 1, progress := 0, trace := [0] }))) = _
    rw [progressUpdate_st 1 0 [0] (jsRound_progressValue_depth0 5) h1 rfl]
    rw [items_unfold_dirOk (@checkpoint_none ctxNone rfl _) (by decide)]
    show wrapGH (assembleDir "r" "" 0 5
      (match buildFileTreeWithCancellation ctxNone "r" "a"
          (.ok [RemoteEntry.file "log.txt" "a/log.txt" "u" 3]) 1 5
          { tick := 2, progress := 10, trace := [0, 10] } with
       | (Except.error e, s2) => (Except.error e, s2)
       | (Except.ok subTree, s2) =>
         consChild (dirChildNode "a" "a" 0 5 subTree)
           (buildFileTreeItems ctxNone "r" [] 0 5 s2))) = _
    rw [hsub]
    show wrapGH (assembleDir "r" "" 0 5 (consChild
      (dirChildNode "a" "a" 0 5 (folderNode "r" "a" 1 5
        [fileNode "log.txt" "a/log.txt" "u" 3 1 5]))
      (buildFileTreeItems ctxNone "r" [] 0 5
        { tick := 4, progress := 26, trace := [0, 10, 26] }))) = _
    rw [items_unfold_nil]
    rfl
  exact analyzeRoute_ok_eval ctxNone "https://github.com/o/r" "r"
    (.ok [RemoteEntry.dirOk "a" "a"
      [RemoteEntry.file "log.txt" "a/log.txt" "u" 3]]) (.intVal 5)
    (flattenRemote [RemoteEntry.dirOk "a" "a"
      [RemoteEntry.file "log.txt" "a/log.txt" "u" 3]]) 5
    (folderNode "r" "" 0 5
      [dirChildNode "a" "a" 0 5 (folderNode "r" "a" 1 5
        [fileNode "log.txt" "a/log.txt" "u" 3 1 5])])
    { tick := 4, progress := 26, trace := [0, 10, 26] } (0, 1) (1, 1)
    { analyzedFiles := 0, analyzedFolders := 1, totalFiles := 0,
      totalFolders := 1 } [0, 10, 26, 100]
    (by decide) hc rfl (by decide) (by decide) rfl rfl

/-- C6 (as amended): whenever the route persists a record, the *reported*
statistics satisfy `analyzedFiles ≤ totalFiles` and
`analyzedFolders ≤ totalFolders`, because the route clamps the analyzed
counts with `Math.min` against the totals (part_007 lines 579-580).  The
underlying reconciler totals are not in general `≥` the counts present in
the crawled tree (see the counterexample). -/
theorem C6_reported_counts_clamped (ctx : Ctx) (repoUrl repo : String)
    (fetch : RootFetch) (clientDepth : ClientMaxDepth)
    (treesListing : Option (List FlatItem)) (resp : Response)
    (rec : SavedRecord) (tr : List Int)
    (h : analyzeRoute ctx repoUrl repo fetch clientDepth treesListing =
      (resp, some rec, tr)) :
    rec.stats.analyzedFiles ≤ rec.stats.totalFiles ∧
    rec.stats.analyzedFolders ≤ rec.stats.totalFolders := by
  unfold analyzeRoute at h
  rcases hcr : buildFileTreeWithCancellation ctx repo "" fetch 0
      (effectiveMaxDepth clientDepth).toNat st0 with ⟨res, sEnd⟩
  rw [hcr] at h
  cases res with
  | error msg =>
    dsimp only at h
    rw [Prod.mk.injEq, Prod.mk.injEq] at h
    exact absurd h.2.1 (by simp)
  | ok fileTree =>
    dsimp only at h
    split at h
    · rw [Prod.mk.injEq, Prod.mk.injEq] at h
      exact absurd h.2.1 (by simp)
    · rw [Prod.mk.injEq, Prod.mk.injEq] at h
      obtain ⟨_, hrec, _⟩ := h
      rw [Option.some.injEq] at hrec
      rw [← hrec]
      exact ⟨Nat.min_le_right _ _, Nat.min_le_right _ _⟩

/-- Witness for C6's amended statement at a concrete one-file analysis. -/
theorem C6_witness :
    ({ analyzedFiles := 1, analyzedFolders := 0, totalFiles := 1,
       totalFolders := 0 } : RepoStats).analyzedFiles ≤
      ({ analyzedFiles := 1, analyzedFolders := 0, totalFiles := 1,
         totalFolders := 0 } : RepoStats).totalFiles ∧
    ({ analyzedFiles := 1, analyzedFolders := 0, totalFiles := 1,
       totalFolders := 0 } : RepoStats).analyzedFolders ≤
      ({ analyzedFiles := 1, analyzedFolders := 0, totalFiles := 1,
         totalFolders := 0 } : RepoStats).totalFolders := by
  have h1 : max (0 : ℤ) 10 = 10 := by omega
  have hc : buildFileTreeWithCancellation ctxNone "r" ""
      (.ok [RemoteEntry.file "app.js" "app.js" "u" 9]) 0 5 st0 =
      (.ok (folderNode "r" "" 0 5 [fileNode "app.js" "app.js" "u" 9 0 5]),
       { tick := 2, progress := 10, trace := [0, 10] }) := by
    rw [crawl_unfold_listing (@checkpoint_none ctxNone rfl st0) (by omega)]
    show wrapGH (assembleDir "r" "" 0 5 (buildFileTreeItems ctxNone "r"
      [RemoteEntry.file "app.js" "app.js" "u" 9] 0 5
      (progressUpdate 0 5 { tick := 1, progress := 0, trace := [0] }))) = _
    rw [progressUpdate_st 1 0 [0] (jsRound_progressValue_depth0 5) h1 rfl]
    rw [items_unfold_file (@checkpoint_none ctxNone rfl _) (by decide)]
    rw [items_unfold_nil]
    rfl
  refine C6_reported_counts_clamped ctxNone "https://github.com/o/r" "r"
    (.ok [RemoteEntry.file "app.js" "app.js" "u" 9]) (.intVal 5)
    (some [⟨"app.js", FlatType.blob⟩]) Response.okJson
    { repoUrl := "https://github.com/o/r",
      tree := folderNode "r" "" 0 5 [fileNode "app.js" "app.js" "u" 9 0 5],
      stats := { analyzedFiles := 1, analyzedFolders := 0, totalFiles := 1,
                 totalFolders := 0 } }
    [0, 10, 100] ?_
  exact analyzeRoute_ok_eval ctxNone "https://github.com/o/r" "r"
    (.ok [RemoteEntry.file "app.js" "app.js" "u" 9]) (.intVal 5)
    [⟨"app.js", FlatType.blob⟩] 5
    (folderNode "r" "" 0 5 [fileNode "app.js" "app.js" "u" 9 0 5])
    { tick := 2, progress := 10, trace := [0, 10] } (1, 0) (1, 0)
    { analyzedFiles := 1, analyzedFolders := 0, totalFiles := 1,
      totalFolders := 0 } [0, 10, 100]
    (by decide) hc rfl (by decide) (by decide) rfl rfl

/-! ## Claim C7 -/

/-- Counterexample for C7 as stated: the parser's regex search is not
anchored at the end of the path, so an input with *three* path segments
after `github.com/` — malformed under the claim's "exactly two non-empty
segments" reading — is not rejected: the parser happily returns the first
two segments as a partial result instead of failing. -/
theorem C7_counterexample_extra_segment_accepted :
    specWellFormedGitHubUrl "https://github.com/a/b/c" = false ∧
    parseGitHubUrl "https://github.com/a/b/c" = some ("a", "b") := by
  decide

/-- C7 (as amended): whatever the parser *does* accept is validated — on a
successful parse both returned segments are non-empty and match the
conservative identifier patterns (first and last character alphanumeric,
only allowed characters in between); and the parsing step is a pure
function of the input string, so it performs no network call.  What fails
in the claim is only the converse direction: inputs whose path holds extra
segments beyond `owner/repo` are not rejected (the regex search is
unanchored), so not every malformed input yields `null`. -/
theorem C7_parser_validates_segments (url owner repo : String)
    (h : parseGitHubUrl url = some (owner, repo)) :
    owner ≠ "" ∧ repo ≠ "" ∧ validOwnerPattern owner = true ∧
      validRepoPattern repo = true := by
  unfold parseGitHubUrl at h
  rcases hs : searchGithub
      (stripDotGitSuffix (stripTrailingSlash (jsTrim url))).toList with
    _ | ⟨o, r⟩
  · simp only [hs] at h
    exact Option.noConfusion h
  · simp only [hs] at h
    split_ifs at h with h1 h2
    all_goals first
      | exact Option.noConfusion h
      | (rw [Option.some.injEq, Prod.mk.injEq] at h
         obtain ⟨ho, hr⟩ := h
         subst ho
         subst hr
         simp only [Bool.or_eq_true, beq_iff_eq, not_or] at h1
         rw [Bool.and_eq_true] at h2
         exact ⟨h1.1, h1.2, h2.1, h2.2⟩)

/-- Witness for C7 at the repository's own URL. -/
theorem C7_witness :
    "abhi17bgp" ≠ "" ∧ "Github_Repo_Analyzer_V2.0" ≠ "" ∧
      validOwnerPattern "abhi17bgp" = true ∧
      validRepoPattern "Github_Repo_Analyzer_V2.0" = true :=
  C7_parser_validates_segments
    "https://github.com/abhi17bgp/Github_Repo_Analyzer_V2.0"
    "abhi17bgp" "Github_Repo_Analyzer_V2.0" (by decide)

/-! ## Claim C8 -/

/-- C8: deletion is by record id scoped to the owning user.  Under the
`Map`'s key-uniqueness assumption, the delete route answers 200 exactly
when the storage holds a record with the requested id *owned by the
requesting user*; on 200 exactly that record is removed; otherwise —
nonexistent id and foreign owner alike — the route answers the single
fixed `404 "Repository not found"` response (revealing nothing about
existence) and the storage is unchanged. -/
theorem C8_delete_scoped_to_owner (storage : List RepoRecord)
    (userId repoId : Nat)
    (hids : (storage.map RepoRecord.id).Nodup) :
    ((deleteRepositoryRoute storage userId repoId).1.1 = 200 ↔
      ∃ r ∈ storage, r.id = repoId ∧ r.user_id = userId) ∧
    ((deleteRepositoryRoute storage userId repoId).1.1 = 200 →
      (deleteRepositoryRoute storage userId repoId).2 =
        storage.filter fun r => !(r.id == repoId)) ∧
    ((deleteRepositoryRoute storage userId repoId).1.1 ≠ 200 →
      (deleteRepositoryRoute storage userId repoId).1 =
        (404, "Repository not found") ∧
      (deleteRepositoryRoute storage userId repoId).2 = storage) := by
  rcases hf : storage.find? (fun x => x.id == repoId) with _ | r
  · have hdel : deleteById storage userId repoId = (false, storage) := by
      unfold deleteById storageGet
      rw [hf]
    unfold deleteRepositoryRoute
    rw [hdel]
    refine ⟨⟨?_, ?_⟩, ?_, fun _ => ⟨rfl, rfl⟩⟩
    · intro h
      have h' : (404 : Nat) = 200 := h
      exact absurd h' (by decide)
    · rintro ⟨q, hq, hqid, _⟩
      have hnone := List.find?_eq_none.mp hf q hq
      rw [hqid] at hnone
      simp at hnone
    · intro h
      have h' : (404 : Nat) = 200 := h
      exact absurd h' (by decide)
  · have hmem := List.mem_of_find?_eq_some hf
    have hid : r.id = repoId := by
      have := List.find?_some hf
      simpa using this
    by_cases hu : r.user_id = userId
    · have hdel : deleteById storage userId repoId =
          (true, storage.filter fun x => !(x.id == repoId)) := by
        unfold deleteById storageGet
        rw [hf]
        show (if r.user_id = userId then
          (true, storage.filter fun x => !(x.id == repoId))
          else (false, storage)) = _
        rw [if_pos hu]
      unfold deleteRepositoryRoute
      rw [hdel]
      refine ⟨⟨fun _ => ⟨r, hmem, hid, hu⟩, fun _ => rfl⟩, fun _ => rfl,
        ?_⟩
      intro h
      exact absurd rfl h
    · have hdel : deleteById storage userId repoId = (false, storage) := by
        unfold deleteById storageGet
        rw [hf]
        show (if r.user_id = userId then
          (true, storage.filter fun x => !(x.id == repoId))
          else (false, storage)) = _
        rw [if_neg hu]
      unfold deleteRepositoryRoute
      rw [hdel]
      refine ⟨⟨?_, ?_⟩, ?_, fun _ => ⟨rfl, rfl⟩⟩
      · intro h
        have h' : (404 : Nat) = 200 := h
        exact absurd h' (by decide)
      · rintro ⟨q, hq, hqid, hqu⟩
        have hrq : q = r :=
          List.inj_on_of_nodup_map hids hq hmem (by rw [hqid, hid])
        rw [hrq] at hqu
        exact absurd hqu hu
      · intro h
        have h' : (404 : Nat) = 200 := h
        exact absurd h' (by decide)

/-- Witness for C8: two records owned by users 10 and 20; user 10 asks to
delete user 20's record and gets the fixed 404 with nothing deleted. -/
theorem C8_witness :
    ((deleteRepositoryRoute [⟨1, 10, "a"⟩, ⟨2, 20, "b"⟩] 10 2).1.1 = 200 ↔
      ∃ r ∈ [(⟨1, 10, "a"⟩ : RepoRecord), ⟨2, 20, "b"⟩],
        r.id = 2 ∧ r.user_id = 10) ∧
    ((deleteRepositoryRoute [⟨1, 10, "a"⟩, ⟨2, 20, "b"⟩] 10 2).1.1 = 200 →
      (deleteRepositoryRoute [⟨1, 10, "a"⟩, ⟨2, 20, "b"⟩] 10 2).2 =
        [(⟨1, 10, "a"⟩ : RepoRecord), ⟨2, 20, "b"⟩].filter
          fun r => !(r.id == 2)) ∧
    ((deleteRepositoryRoute [⟨1, 10, "a"⟩, ⟨2, 20, "b"⟩] 10 2).1.1 ≠ 200 →
      (deleteRepositoryRoute [⟨1, 10, "a"⟩, ⟨2, 20, "b"⟩] 10 2).1 =
        (404, "Repository not found") ∧
      (deleteRepositoryRoute [⟨1, 10, "a"⟩, ⟨2, 20, "b"⟩] 10 2).2 =
        [⟨1, 10, "a"⟩, ⟨2, 20, "b"⟩]) :=
  C8_delete_scoped_to_owner [⟨1, 10, "a"⟩, ⟨2, 20, "b"⟩] 10 2 (by decide)

/-! ## Claim C9 -/

/-- C9: whatever the client supplies as `maxDepth` — a missing field, a
non-numeric string, zero, a negative number, or an out-of-range number —
the depth bound the crawl actually runs with,
`Math.min(Math.max(parseInt(maxDepth) || 15, 1), 20)`, lies in `[1, 20]`. -/
theorem C9_effective_depth_in_range (c : ClientMaxDepth) :
    1 ≤ effectiveMaxDepth c ∧ effectiveMaxDepth c ≤ 20 := by
  cases c with
  | missing =>
    unfold effectiveMaxDepth parseIntOr15
    omega
  | nonNumeric =>
    unfold effectiveMaxDepth parseIntOr15
    omega
  | intVal n =>
    unfold effectiveMaxDepth parseIntOr15
    dsimp only
    split_ifs with h0 <;> omega

/-! ## Claim C10 -/

theorem cancelLoop_spec (userId : String)
    (m : List (String × AnalysisEntry)) :
    (cancelLoop userId m).2 =
      m.map (fun p => if p.1.startsWith userId then
        (p.1, { p.2 with cancelled := true }) else p) ∧
    ((cancelLoop userId m).1 = true ↔
      ∃ p ∈ m, p.1.startsWith userId = true) := by
  induction m with
  | nil => simp [cancelLoop]
  | cons p rest ih =>
    have hstep : cancelLoop userId (p :: rest) =
        if p.1.startsWith userId then
          (true, (p.1, { p.2 with cancelled := true }) ::
            (cancelLoop userId rest).2)
        else ((cancelLoop userId rest).1, p :: (cancelLoop userId rest).2) := by
      rw [cancelLoop]
    by_cases h : p.1.startsWith userId = true
    · rw [hstep, if_pos h]
      refine ⟨?_, ?_⟩
      · simp [h, ih.1]
      · simp [h]
    · rw [hstep, if_neg h]
      refine ⟨?_, ?_⟩
      · simp [h, ih.1]
      · simp [h, ih.2]

/-- C10: the cancel route's behaviour does not depend on the `analysisId`
field of the request body (it is destructured but never used); it sets
`cancelled := true` on *every* active-analyses entry whose key starts with
the requesting user's id, leaving all other entries untouched; and its
`cancelled` response field is `true` exactly when at least one such entry
exists (otherwise it reports `"No active analysis found"` with
`cancelled = false`). -/
theorem C10_cancel_ignores_body_and_prefix_matches (userId : String)
    (a1 a2 : Option String) (m : List (String × AnalysisEntry)) :
    cancelRoute userId a1 m = cancelRoute userId a2 m ∧
    (cancelRoute userId a1 m).2 =
      m.map (fun p => if p.1.startsWith userId then
        (p.1, { p.2 with cancelled := true }) else p) ∧
    ((cancelRoute userId a1 m).1.2 = true ↔
      ∃ p ∈ m, p.1.startsWith userId = true) := by
  refine ⟨rfl, (cancelLoop_spec userId m).1, (cancelLoop_spec userId m).2⟩
